import Mathlib
/-!
# SuperMind-Train — verification of the question generator and session state machine

Shallow embedding of the SuperMind multiplication-trainer core:

* `src/unnamed/part_006` (first variant): rule-based `QuestionGenerator`
  (difficulty ranges, multiplication rules, distractor strategies,
  duplicate-avoidance loop, validation, import/export);
* `src/unnamed/part_005`: `randomInt` / `shuffleArray` utilities;
* `src/js/modules/Storage.js`: settings validation, result persistence,
  running statistics;
* `src/js/modules/TestManager.js` with its generator collaborator
  `src/unnamed/part_002`: the session state machine.

Modelling conventions, used consistently below:

* JavaScript numbers are embedded exactly: values the source only ever holds
  as integers are `ℤ` or `ℕ`; values that can be fractional (some distractor
  arithmetic uses factors like 0.5 or 0.8) are `JsRat`, an unreduced integer
  fraction with a positive denominator.  `JsRat.toRat` interprets such a
  value as the true rational it denotes, and every theorem about numeric
  values speaks through `toRat`.  `Math.round x` is `⌊x + 1/2⌋` (`jsRound`),
  matching the JS semantics of rounding halves towards +∞.
* `Math.random()` is modelled by an explicit stream of naturals (`Rng`):
  each call consumes one element of the stream.  A JS draw
  `Math.floor(Math.random()*w) + lo` with `w = hi - lo + 1 > 0` takes values
  exactly `lo + k` for `k ∈ {0, …, ⌈w⌉ - 1}`, and is modelled as
  `lo + (stream value % ⌈w⌉)`; quantifying over all streams quantifies over
  all possible sequences of random draws.  (For `hi < lo - 1`, a region none
  of the call sites can reach under the theorems' hypotheses, the model
  returns `lo`.)  A boolean draw `Math.random() < 0.5` consumes one stream
  element `k` and yields `k % 2 == 0`.
* `Date.now()` is an explicit `now : ℤ` input of every operation that reads
  the clock.
* JS `while` loops whose termination is only almost-sure under true
  randomness (the distractor fill loops) take an explicit fuel argument and
  return `Option`; `none` means the fuel was exhausted, which corresponds to
  a JS execution that has not yet terminated.  All theorems about generated
  questions are conditional on the generator having returned.
-/

/-! # Definitions -/

/-! ## Random-source model and JS numeric utilities -/
/-- A source of randomness: an infinite stream of naturals with a cursor.
Each `Math.random()` call consumes one element. -/
structure Rng where
  g : ℕ → ℕ
  i : ℕ

/-- Draw one raw value from the stream. -/
def Rng.next (r : Rng) : ℕ × Rng := (r.g r.i, ⟨r.g, r.i + 1⟩)

/-- `randomInt(min, max)` from `src/unnamed/part_005`:
`Math.floor(Math.random() * (max - min + 1)) + min`, integer bounds. -/
def randomIntZ (lo hi : ℤ) (r : Rng) : ℤ × Rng :=
  let (k, r') := r.next
  (lo + (k % max 1 (hi - lo + 1).toNat : ℕ), r')

/-- `Math.random() < 0.5`: a fair coin consuming one stream element. -/
def coinFlip (r : Rng) : Bool × Rng :=
  let (k, r') := r.next
  (k % 2 == 0, r')

/-- JS `Math.round`: round half towards +∞. -/
def jsRound (q : ℚ) : ℤ := ⌊q + 1/2⌋

/-- Swap two positions of a list (the JS destructuring swap
`[a[i], a[j]] = [a[j], a[i]]`); out-of-range indices leave the list
unchanged (unreachable at the call sites). -/
def listSwap {α : Type _} (l : List α) (i j : ℕ) : List α :=
  match l.get? i, l.get? j with
  | some a, some b => (l.set i b).set j a
  | _, _ => l

/-- The Fisher–Yates loop of `shuffleArray` (`src/unnamed/part_005`):
`for (i = len-1; i > 0; i--) { j = floor(random()*(i+1)); swap i j }`.
The fuel argument is the current loop index `i`. -/
def shuffleGo {α : Type _} : ℕ → List α → Rng → List α × Rng
  | 0, l, r => (l, r)
  | i + 1, l, r =>
    let (k, r') := r.next
    let j := k % (i + 2)
    shuffleGo i (listSwap l (i + 1) j) r'

/-- `shuffleArray` (`src/unnamed/part_005`): copy, then Fisher–Yates. -/
def shuffleArray {α : Type _} (l : List α) (r : Rng) : List α × Rng :=
  shuffleGo (l.length - 1) l r

/-! ## `JsRat`: exact, kernel-computable JS numbers

Mathlib's `ℚ` normalizes through `Nat.gcd` inside proof-carrying structure
fields, which the kernel cannot evaluate under `decide`; concrete runs of
the embedded program would then be impossible to check.  `JsRat` stores an
unreduced fraction `n / d` with `0 < d` maintained by every operation the
program performs, so all arithmetic is plain integer arithmetic.  The
interpretation `toRat` maps a `JsRat` to the rational number it denotes;
theorems state numeric facts through `toRat`. -/
structure JsRat where
  n : ℤ
  d : ℤ
deriving Repr, DecidableEq

namespace JsRat

/-- Embed an integer (denominator 1). -/
def ofInt (z : ℤ) : JsRat := ⟨z, 1⟩

instance : Inhabited JsRat := ⟨ofInt 0⟩

def add (x y : JsRat) : JsRat := ⟨x.n * y.d + y.n * x.d, x.d * y.d⟩

def sub (x y : JsRat) : JsRat := ⟨x.n * y.d - y.n * x.d, x.d * y.d⟩

def mul (x y : JsRat) : JsRat := ⟨x.n * y.n, x.d * y.d⟩

def neg (x : JsRat) : JsRat := ⟨-x.n, x.d⟩

/-- Division; the divisor's sign is folded into the numerator so the
denominator stays positive.  (JS division by zero yields ±Infinity/NaN;
no theorem's inputs reach it.) -/
def div (x y : JsRat) : JsRat :=
  if y.n < 0 then ⟨-(x.n * y.d), x.d * (-y.n)⟩ else ⟨x.n * y.d, x.d * y.n⟩

/-- JS `===` / `==` / `Array.includes` on numbers: numeric equality. -/
def beq (x y : JsRat) : Bool := x.n * y.d == y.n * x.d

/-- JS `<=` on numbers. -/
def ble (x y : JsRat) : Bool := decide (x.n * y.d ≤ y.n * x.d)

/-- JS `<` on numbers. -/
def blt (x y : JsRat) : Bool := decide (x.n * y.d < y.n * x.d)

instance : BEq JsRat := ⟨beq⟩

/-- JS `Math.max` on two numbers. -/
def jsMax (x y : JsRat) : JsRat := if ble x y then y else x

/-- JS `Math.min` on two numbers. -/
def jsMin (x y : JsRat) : JsRat := if ble x y then x else y

/-- JS `Math.floor` (denominator positive). -/
def floor (x : JsRat) : ℤ := Int.fdiv x.n x.d

/-- JS `Math.ceil` (denominator positive). -/
def ceil (x : JsRat) : ℤ := -(Int.fdiv (-x.n) x.d)

/-- JS `Math.round`: `⌊x + 0.5⌋` (`round_eq` relates it to `jsRound`). -/
def round (x : JsRat) : ℤ := (add x ⟨1, 2⟩).floor

/-- The rational number a `JsRat` denotes. -/
def toRat (x : JsRat) : ℚ := (x.n : ℚ) / (x.d : ℚ)

/-- Well-formedness: positive denominator (every operation in the embedded
program preserves it). -/
def WF (x : JsRat) : Prop := 0 < x.d

end JsRat

/-- `randomInt(min, max)` at possibly fractional (JS float) bounds, as
reached by `generateRandomDistractor`, where the half-width
`Math.max(10, c*0.5)` need not be an integer: `lo + (k % ⌈hi - lo + 1⌉)`. -/
def randomIntJ (lo hi : JsRat) (r : Rng) : JsRat × Rng :=
  let (k, r') := r.next
  (JsRat.add lo (JsRat.ofInt
    ((k % max 1 (JsRat.ceil (JsRat.add (JsRat.sub hi lo) (JsRat.ofInt 1))).toNat : ℕ) : ℤ)), r')

/-- JS `toLowerCase` on the ASCII strings this program uses, character by
character (`String.toLower` itself recurses over byte positions in a way
the kernel cannot evaluate). -/
def jsToLower (s : String) : String := String.mk (s.toList.map Char.toLower)

/-! ## Question generator (`src/unnamed/part_006`, rule-based variant)

The embedding follows the `QuestionGenerator` class method by method.  The
generator's `Math.random()` draws are threaded through `Rng`; `Date.now()` is
the `now` parameter; the almost-surely-terminating distractor fill loop takes
fuel and yields `Option`. -/
/-- One multiple-choice option, as built by `generateAnswerOptions`. -/
structure AnswerOption where
  value : JsRat
  position : ℕ
  isCorrect : Bool
deriving Repr, DecidableEq

/-- A generated question (`createQuestion`'s object literal). -/
structure Question where
  id : String
  factorA : ℤ
  factorB : ℤ
  correctAnswer : ℤ
  options : List AnswerOption
  difficulty : String
  timestamp : ℤ
  timeLimit : ℤ
deriving Repr, DecidableEq

instance : Inhabited Question :=
  ⟨⟨"", 0, 0, 0, [], "", 0, 0⟩⟩

namespace QuestionGenerator

/-- A `{min, max}` factor range. -/
structure FactorRange where
  min : ℤ
  max : ℤ
deriving Repr, DecidableEq

/-- `getRangeForDifficulty`: difficulty → factor range; an empty string is
the only falsy JS string, so `difficulty || 'medium'` is modelled by the
emptiness test; unknown keys fall back to the medium range. -/
def getRangeForDifficulty (difficulty : String) : FactorRange :=
  let key := jsToLower (if difficulty = "" then "medium" else difficulty)
  if key = "easy" then ⟨10, 20⟩
  else if key = "medium" then ⟨10, 50⟩
  else if key = "hard" then ⟨10, 100⟩
  else if key = "extreme" then ⟨50, 99⟩
  else ⟨10, 50⟩

/-- Rule 1: a random number in range times eleven. -/
def generateRule1 (range : FactorRange) (r : Rng) : (ℤ × ℤ) × Rng :=
  let (a, r') := randomIntZ range.min range.max r
  ((a, 11), r')

/-- The `hasDigit1InTensOrOnes` closure of `generateRule2`
(`abs % 10 === 1 || Math.floor(abs / 10) % 10 === 1`). -/
def hasDigit1InTensOrOnes (n : ℤ) : Bool :=
  let a : ℤ := n.natAbs
  a.tmod 10 == 1 || (Int.fdiv a 10).tmod 10 == 1

/-- `randomNumberWithDigit1InTensOrOnes`: pick uniformly among the members
of the range with a 1 in the ones or tens place, falling back to a plain
draw when no candidate exists. -/
def randomNumberWithDigit1InTensOrOnes (range : FactorRange) (r : Rng) : ℤ × Rng :=
  let candidates := ((List.range (range.max - range.min + 1).toNat).map
      (fun (t : ℕ) => range.min + (t : ℤ))).filter
    (fun n => n.tmod 10 == 1 || (Int.fdiv n 10).tmod 10 == 1)
  if candidates.isEmpty then randomIntZ range.min range.max r
  else
    let (idx, r') := randomIntZ 0 ((candidates.length : ℤ) - 1) r
    (candidates.getD idx.toNat 0, r')

/-- The guarded `while` loop of `generateRule2` (guard bound 1000); the fuel
is the number of iterations still allowed. -/
def generateRule2Go (range : FactorRange) : ℕ → ℤ → ℤ → Rng → (ℤ × ℤ) × Rng
  | 0, a, b, r => ((a, b), r)
  | fuel + 1, a, b, r =>
    if ¬ hasDigit1InTensOrOnes a ∧ ¬ hasDigit1InTensOrOnes b then
      let (c, r') := coinFlip r
      if c then
        let (a', r'') := randomNumberWithDigit1InTensOrOnes range r'
        generateRule2Go range fuel a' b r''
      else
        let (b', r'') := randomNumberWithDigit1InTensOrOnes range r'
        generateRule2Go range fuel a b' r''
    else ((a, b), r)

/-- Rule 2: two numbers in range, at least one with digit 1 in the ones or
tens place (modulo the 1000-iteration guard). -/
def generateRule2 (range : FactorRange) (r : Rng) : (ℤ × ℤ) × Rng :=
  let (a, r1) := randomIntZ range.min range.max r
  let (b, r2) := randomIntZ range.min range.max r1
  generateRule2Go range 1000 a b r2

/-- Rule 4: two completely random numbers within the range. -/
def generateRule4 (range : FactorRange) (r : Rng) : (ℤ × ℤ) × Rng :=
  let (a, r1) := randomIntZ range.min range.max r
  let (b, r2) := randomIntZ range.min range.max r1
  ((a, b), r2)

def validRules : List ℕ := [1, 2, 4]

/-- The `selectedRule` computation of `generateFactorsByRules`: extreme
difficulty forces rule 4; otherwise an explicitly requested valid rule is
used, and anything else draws a random rule. -/
def selectRule (ruleType : Option ℕ) (difficulty : String) (r : Rng) : ℕ × Rng :=
  if difficulty ≠ "" ∧ jsToLower difficulty = "extreme" then (4, r)
  else
    match ruleType with
    | some t =>
      if validRules.contains t then (t, r)
      else
        let (idx, r') := randomIntZ 0 ((validRules.length : ℤ) - 1) r
        (validRules.getD idx.toNat 4, r')
    | none =>
      let (idx, r') := randomIntZ 0 ((validRules.length : ℤ) - 1) r
      (validRules.getD idx.toNat 4, r')

/-- `generateFactorsByRules`: pick a rule, then generate the two factors
within the difficulty's range. -/
def generateFactorsByRules (ruleType : Option ℕ) (difficulty : String) (r : Rng) :
    (ℤ × ℤ) × Rng :=
  let range := getRangeForDifficulty difficulty
  let (rule, r') := selectRule ruleType difficulty r
  match rule with
  | 1 => generateRule1 range r'
  | 2 => generateRule2 range r'
  | _ => generateRule4 range r'

/-- JS `parseInt` on the strings arising from the digit swap: optional sign,
then the longest leading digit run; no digits at all is NaN (`none`). -/
def jsParseInt (s : String) : Option ℤ :=
  let chars := s.toList
  let signAndRest : Bool × List Char :=
    match chars with
    | '-' :: cs => (true, cs)
    | '+' :: cs => (false, cs)
    | cs => (false, cs)
  let digits := signAndRest.2.takeWhile (fun ch => ch.isDigit)
  if digits.isEmpty then none
  else
    let v : ℤ := digits.foldl (fun acc ch => acc * 10 + ((ch.toNat - '0'.toNat : ℕ) : ℤ)) 0
    some (if signAndRest.1 then -v else v)

/-- `generateOffByOneDistractor`: `correctAnswer ± 1`. -/
def generateOffByOneDistractor (c : ℤ) (r : Rng) : JsRat × Rng :=
  let (i, r') := randomIntZ 0 1 r
  (JsRat.ofInt ([c + 1, c - 1].getD i.toNat 0), r')

/-- `generateSwapDigitsDistractor`: swap two adjacent characters of the
decimal representation and re-parse; fewer than 2 characters adds 1..9. -/
def generateSwapDigitsDistractor (c : ℤ) (r : Rng) : Option JsRat × Rng :=
  let digits := (toString c).toList
  if digits.length < 2 then
    let (k, r') := randomIntZ 1 9 r
    (some (JsRat.ofInt (c + k)), r')
  else
    let (si, r') := randomIntZ 0 ((digits.length : ℤ) - 2) r
    let swapped := listSwap digits si.toNat (si.toNat + 1)
    ((jsParseInt (String.mk swapped)).map JsRat.ofInt, r')

/-- `generateFactorVariationDistractor`: vary one factor by ±1; an empty
filtered list indexes off the end (JS `undefined`, `none` here). -/
def generateFactorVariationDistractor (a b : ℤ) (r : Rng) : Option JsRat × Rng :=
  let variations := ([(a + 1) * b, (a - 1) * b, a * (b + 1), a * (b - 1)].filter
    (fun v => decide (0 ≤ v)))
  let (idx, r') := randomIntZ 0 ((variations.length : ℤ) - 1) r
  ((variations.get? idx.toNat).map JsRat.ofInt, r')

/-- `generateSimpleMathDistractor`: `correctAnswer ± 10, ± 5`. -/
def generateSimpleMathDistractor (c : ℤ) (r : Rng) : Option JsRat × Rng :=
  let operations := ([c + 10, c - 10, c + 5, c - 5].filter (fun v => decide (0 ≤ v)))
  let (idx, r') := randomIntZ 0 ((operations.length : ℤ) - 1) r
  ((operations.get? idx.toNat).map JsRat.ofInt, r')

/-- `generateComplexMathDistractor`: offsets by a factor and scalings by
1.1 / 0.9 (floored, hence integers). -/
def generateComplexMathDistractor (c a b : ℤ) (r : Rng) : Option JsRat × Rng :=
  let variations := ([c + a, c - a, c + b, c - b,
      JsRat.floor (JsRat.mul (JsRat.ofInt c) ⟨11, 10⟩),
      JsRat.floor (JsRat.mul (JsRat.ofInt c) ⟨9, 10⟩)].filter (fun v => decide (0 ≤ v)))
  let (idx, r') := randomIntZ 0 ((variations.length : ℤ) - 1) r
  ((variations.get? idx.toNat).map JsRat.ofInt, r')

/-- `generateRandomCloseDistractor`: random offset within 20% of the answer
(the 20% bound is floored, so everything is an integer). -/
def generateRandomCloseDistractor (c : ℤ) (r : Rng) : JsRat × Rng :=
  let range : ℤ := max 1 (JsRat.floor (JsRat.mul (JsRat.ofInt c) ⟨1, 5⟩))
  let (offset, r') := randomIntZ (-range) range r
  (JsRat.ofInt (max 0 (c + offset)), r')

/-- The `ranges` object lookup of `generateRandomDistractor`: a
difficulty-dependent half-width such as `Math.max(10, correctAnswer * 0.5)`
(exact difficulty string, unknown keys → normal). -/
def randomDistractorRange (c : ℤ) (difficulty : String) : JsRat :=
  if difficulty = "easy" then JsRat.jsMax (JsRat.ofInt 10) (JsRat.mul (JsRat.ofInt c) ⟨1, 2⟩)
  else if difficulty = "normal" then
    JsRat.jsMax (JsRat.ofInt 20) (JsRat.mul (JsRat.ofInt c) ⟨4, 5⟩)
  else if difficulty = "hard" then
    JsRat.jsMax (JsRat.ofInt 50) (JsRat.mul (JsRat.ofInt c) ⟨3, 2⟩)
  else if difficulty = "extreme" then
    JsRat.jsMax (JsRat.ofInt 99) (JsRat.mul (JsRat.ofInt c) ⟨2, 1⟩)
  else JsRat.jsMax (JsRat.ofInt 20) (JsRat.mul (JsRat.ofInt c) ⟨4, 5⟩)

/-- `generateRandomDistractor`: random offset within the difficulty-dependent
half-width; the half-width need not be an integer, so the draw is
fractional. -/
def generateRandomDistractor (c : ℤ) (difficulty : String) (r : Rng) : JsRat × Rng :=
  let range := randomDistractorRange c difficulty
  let (offset, r') := randomIntJ (JsRat.neg range) range r
  (JsRat.jsMax (JsRat.ofInt 0) (JsRat.add (JsRat.ofInt c) offset), r')

/-- The named distractor strategies. -/
inductive DistractorStrategy where
  | off_by_one
  | swap_digits
  | factor_variation
  | simple_math
  | complex_math
  | random_close
deriving Repr, DecidableEq

/-- `getDistractorStrategies`: difficulty-ordered strategy lists ('medium'
is aliased to 'normal', unknown keys fall back to 'normal'). -/
def getDistractorStrategies (difficulty : String) : List DistractorStrategy :=
  let key := jsToLower (if difficulty = "" then "medium" else difficulty)
  let mapKey := if key = "medium" then "normal" else key
  if mapKey = "easy" then [.off_by_one, .swap_digits, .simple_math]
  else if mapKey = "normal" then [.off_by_one, .swap_digits, .factor_variation, .simple_math]
  else if mapKey = "hard" then
    [.off_by_one, .swap_digits, .factor_variation, .complex_math, .random_close]
  else if mapKey = "extreme" then
    [.swap_digits, .factor_variation, .complex_math, .random_close]
  else [.off_by_one, .swap_digits, .factor_variation, .simple_math]

/-- `applyDistractorStrategy`: dispatch on the strategy name; `none` models
a JS result that fails `Number.isFinite` (undefined/NaN). -/
def applyDistractorStrategy (s : DistractorStrategy) (c a b : ℤ) (r : Rng) :
    Option JsRat × Rng :=
  match s with
  | .off_by_one => let p := generateOffByOneDistractor c r; (some p.1, p.2)
  | .swap_digits => generateSwapDigitsDistractor c r
  | .factor_variation => generateFactorVariationDistractor a b r
  | .simple_math => generateSimpleMathDistractor c r
  | .complex_math => generateComplexMathDistractor c a b r
  | .random_close => let p := generateRandomCloseDistractor c r; (some p.1, p.2)

/-- The `strategies.forEach` pass of `generateDistractors`: keep finite
results that differ from the correct answer (JS `!==`, numeric equality),
are new (`includes`, numeric equality), and are non-negative. -/
def distractorPassGo (c a b : ℤ) :
    List DistractorStrategy → List JsRat → Rng → List JsRat × Rng
  | [], ds, r => (ds, r)
  | s :: rest, ds, r =>
    let (res, r') := applyDistractorStrategy s c a b r
    match res with
    | some d =>
      if JsRat.beq d (JsRat.ofInt c) = false ∧ ds.contains d = false ∧
          JsRat.ble (JsRat.ofInt 0) d = true then
        distractorPassGo c a b rest (ds ++ [d]) r'
      else distractorPassGo c a b rest ds r'
    | none => distractorPassGo c a b rest ds r'

/-- The strategy pass started from an empty accumulator. -/
def distractorPass (c a b : ℤ) (strats : List DistractorStrategy) (r : Rng) :
    List JsRat × Rng :=
  distractorPassGo c a b strats [] r

/-- The `while (distractors.length < 3)` fill loop of `generateDistractors`,
with fuel (JS terminates only almost surely). -/
def fillDistractors (c : ℤ) (difficulty : String) :
    ℕ → List JsRat → Rng → Option (List JsRat × Rng)
  | 0, ds, r => if 3 ≤ ds.length then some (ds, r) else none
  | fuel + 1, ds, r =>
    if 3 ≤ ds.length then some (ds, r)
    else
      let (cand, r') := generateRandomDistractor c difficulty r
      if ds.contains cand = false ∧ JsRat.beq cand (JsRat.ofInt c) = false then
        fillDistractors c difficulty fuel (ds ++ [cand]) r'
      else fillDistractors c difficulty fuel ds r'

/-- `generateDistractors`: strategy pass, fill loop, then `slice(0, 3)`. -/
def generateDistractors (c a b : ℤ) (difficulty : String) (fuel : ℕ) (r : Rng) :
    Option (List JsRat × Rng) :=
  let (ds, r') := distractorPass c a b (getDistractorStrategies difficulty) r
  (fillDistractors c difficulty fuel ds r').map (fun p => (p.1.take 3, p.2))

/-- The `shuffledOptions.map((value, index) => ...)` step of
`generateAnswerOptions` (`isCorrect: value === correctAnswer`). -/
def buildOptions (c : ℤ) (shuffled : List JsRat) : List AnswerOption :=
  shuffled.enum.map (fun p => ⟨p.2, p.1 + 1, JsRat.beq p.2 (JsRat.ofInt c)⟩)

/-- `generateAnswerOptions`: correct answer first, three distractors,
shuffle, then attach positions and correctness flags. -/
def generateAnswerOptions (c a b : ℤ) (difficulty : String) (fuel : ℕ) (r : Rng) :
    Option (List AnswerOption × Rng) :=
  (generateDistractors c a b difficulty fuel r).map (fun p =>
    let options := JsRat.ofInt c :: p.1
    let shuffled := shuffleArray options p.2
    (buildOptions c shuffled.1, shuffled.2))

/-- `getTimeLimit`: difficulty → seconds ('medium' aliased to 'normal'). -/
def getTimeLimit (difficulty : String) : ℤ :=
  let key := jsToLower (if difficulty = "" then "medium" else difficulty)
  let mapKey := if key = "medium" then "normal" else key
  if mapKey = "easy" then 60
  else if mapKey = "normal" then 45
  else if mapKey = "hard" then 30
  else if mapKey = "extreme" then 25
  else 45

/-- `generateQuestionId`: clock value plus a random 4-digit suffix. -/
def generateQuestionId (now : ℤ) (r : Rng) : String × Rng :=
  let (k, r') := randomIntZ 1000 9999 r
  (s!"q_{now}_{k}", r')

/-- The options object accepted by `generateQuestion`, with its JS
defaults. -/
structure GenOptions where
  factorARange : ℤ × ℤ := (0, 10)
  factorBRange : ℤ × ℤ := (0, 99)
  avoidDuplicates : Bool := true
  difficulty : String := "normal"
  ruleType : Option ℕ := none
  useMultiplicationRules : Bool := true

/-- `createQuestion`: draw factors (rules or ranges), then build the
question object; the object literal evaluates `generateQuestionId()` before
`generateAnswerOptions(...)`, fixing the order of random draws. -/
def createQuestion (opts : GenOptions) (now : ℤ) (fuel : ℕ) (r : Rng) :
    Option (Question × Rng) :=
  let (factors, r1) :=
    if opts.useMultiplicationRules then
      generateFactorsByRules opts.ruleType opts.difficulty r
    else
      let (a, ra) := randomIntZ opts.factorARange.1 opts.factorARange.2 r
      let (b, rb) := randomIntZ opts.factorBRange.1 opts.factorBRange.2 ra
      ((a, b), rb)
  let c := factors.1 * factors.2
  let (qid, r2) := generateQuestionId now r1
  (generateAnswerOptions c factors.1 factors.2 opts.difficulty fuel r2).map (fun p =>
    ({ id := qid, factorA := factors.1, factorB := factors.2, correctAnswer := c,
       options := p.1, difficulty := opts.difficulty, timestamp := now,
       timeLimit := getTimeLimit opts.difficulty }, p.2))

/-- `isDuplicate`: the unordered factor pair already appears in history. -/
def isDuplicate (history : List Question) (q : Question) : Bool :=
  let a1 := min q.factorA q.factorB
  let b1 := max q.factorA q.factorB
  history.any (fun p => min p.factorA p.factorB == a1 && max p.factorA p.factorB == b1)

/-- The `do { ... } while (avoidDuplicates && isDuplicate && attempts < 50)`
loop of `generateQuestion`.  The counter argument is the number of attempts
still allowed (initially 50); the result records the question, the random
state, and how many attempts were consumed. -/
def generateQuestionLoop (opts : GenOptions) (history : List Question) (now : ℤ)
    (fuel : ℕ) : ℕ → Rng → Option (Question × Rng × ℕ)
  | 0, _ => none
  | remaining + 1, r =>
    (createQuestion opts now fuel r).bind (fun p =>
      if opts.avoidDuplicates && isDuplicate history p.1 && decide (1 ≤ remaining) then
        (generateQuestionLoop opts history now fuel remaining p.2).map
          (fun q => (q.1, q.2.1, q.2.2 + 1))
      else some (p.1, p.2, 1))

/-- The generator's mutable state: its question history and random source. -/
structure GenState where
  history : List Question
  rng : Rng

/-- `generateQuestion`: run the attempt loop (bound 50), then push the
resulting question onto the history. -/
def generateQuestion (opts : GenOptions) (now : ℤ) (fuel : ℕ) (st : GenState) :
    Option (Question × GenState) :=
  (generateQuestionLoop opts st.history now fuel 50 st.rng).map
    (fun p => (p.1, ⟨st.history ++ [p.1], p.2.1⟩))

/-! ### Structural invariants of generated questions -/
/-- The invariant maintained by `generateDistractors`' accumulator:
well-formed values, pairwise numerically distinct, never the correct
answer, never negative. -/
def DistractorsOK (c : ℤ) (ds : List JsRat) : Prop :=
  (∀ x ∈ ds, x.WF) ∧
  List.Pairwise (fun x y => x.toRat ≠ y.toRat) ds ∧
  ∀ x ∈ ds, x.toRat ≠ (c : ℚ) ∧ 0 ≤ x.toRat

/-- The structural invariant of a generated question: product correctness,
four options, exactly one marked correct, the marked one carrying the
correct answer, all values non-negative and pairwise (numerically)
distinct. -/
def QuestionInvariant (q : Question) : Prop :=
  q.correctAnswer = q.factorA * q.factorB ∧
  q.options.length = 4 ∧
  q.options.countP (fun o => o.isCorrect) = 1 ∧
  (∀ o ∈ q.options, o.isCorrect = true → o.value.toRat = (q.correctAnswer : ℚ)) ∧
  (∀ o ∈ q.options, 0 ≤ o.value.toRat) ∧
  (q.options.map (fun o => o.value.toRat)).Nodup

end QuestionGenerator

/-! ### Concrete inputs for witness evaluations -/
/-- An all-zeros random stream. -/
def rngZero : Rng := ⟨fun _ => 0, 0⟩

/-- Sample generation options: rule-based path, easy difficulty, duplicate
avoidance on (the JS defaults apart from the difficulty). -/
def sampleOpts : QuestionGenerator.GenOptions := { difficulty := "easy" }

/-- A fresh generator state. -/
def sampleState : QuestionGenerator.GenState := ⟨[], rngZero⟩

/-! ## Session model: the running application

`src/js/app.js` wires a `TestManager` (`src/js/modules/TestManager.js`) to a
`Storage` (`src/js/modules/Storage.js`), a `Timer` (`src/js/modules/Timer.js`)
and the question generator of `src/unnamed/part_002` (the
`js/modules/QuestionGenerator.js` the app imports).  The embedding below
follows those files method by method.  `Date.now()` readings are explicit
`now : ℤ` parameters; ISO date strings are represented by the clock value
that produced them; `localStorage` is a `StorageState`, with a flag that
models an environment where `setItem` throws (quota exceeded or privacy
mode); a thrown JS exception is an `Option String` error channel, `some msg`
propagating to the caller exactly where the source has no `try`/`catch`. -/
/-- A settings object.  `app.js` builds it from the UI with `parseInt`ed
numeric fields, so the numeric fields are integers and the `typeof 'number'`
/ `typeof 'string'` / `typeof 'boolean'` checks of `validateSettings` are
satisfied by typing. -/
structure Settings where
  questionCount : ℤ
  timerMode : String
  timerDuration : ℤ
  soundEnabled : Bool
  language : String
  testMode : String
deriving Repr, DecidableEq

/-- The `defaults` object of `Storage.validateSettings`. -/
def defaultSettings : Settings :=
  { questionCount := 10, timerMode := "off", timerDuration := 30,
    soundEnabled := true, language := "ar", testMode := "practice" }

/-- A question from `js/modules/QuestionGenerator.js` (`src/unnamed/part_002`),
with the fields `TestManager` later writes onto the same object (`undefined`
before that, hence `Option`). -/
structure TMQuestion where
  questionText : String
  factorA : ℤ
  factorB : ℤ
  correctAnswer : ℤ
  answers : List JsRat
  correctIndex : ℤ
  startTime : ℤ
  selectedAnswer : Option JsRat := none
  selectedIndex : Option ℤ := none
  userAnswer : Option JsRat := none
  isCorrect : Option Bool := none
  timeSpent : Option ℤ := none
deriving Repr, DecidableEq

/-- An entry of `TestManager.userAnswers` (`userAnswer` is `null` for the
timeout entries pushed by `handleTimeUp`). -/
structure AnswerEntry where
  questionIndex : ℤ
  userAnswer : Option JsRat
  isCorrect : Bool
  timeSpent : ℤ
deriving Repr, DecidableEq

/-- The object literal of `TestManager.calculateResults`; `timestamp` holds
the clock value behind `new Date().toISOString()`. -/
structure Results where
  totalQuestions : ℤ
  correctCount : ℤ
  incorrectCount : ℤ
  scorePercentage : ℤ
  totalTime : ℤ
  questions : List TMQuestion
  userAnswers : List AnswerEntry
  settings : Settings
  timestamp : ℤ
deriving Repr, DecidableEq

/-- The `validated` object built by `Storage.validateTestResults`. -/
structure ValidatedResults where
  totalQuestions : ℤ
  correctCount : ℤ
  incorrectCount : ℤ
  scorePercentage : ℤ
  totalTime : ℤ
  questions : List TMQuestion
  userAnswers : List AnswerEntry
  settings : Settings
deriving Repr, DecidableEq

/-- The statistics record of `Storage.getStats` / `updateStats`;
`lastTestDate` holds the clock value behind the ISO string, `none` for the
initial `null`. -/
structure Stats where
  totalTests : ℤ
  totalQuestions : ℤ
  correctAnswers : ℤ
  bestScore : ℤ
  averageScore : ℤ
  totalTime : ℤ
  lastTestDate : Option ℤ
deriving Repr, DecidableEq

/-- The `defaultStats` object of `Storage.getStats`. -/
def defaultStats : Stats :=
  { totalTests := 0, totalQuestions := 0, correctAnswers := 0, bestScore := 0,
    averageScore := 0, totalTime := 0, lastTestDate := none }

/-- One history entry (`saveTestResults`' `testResult` spread): `id` is the
`Date.now()` reading and `timestamp` the ISO string of the same instant. -/
structure StoredResult where
  id : ℤ
  timestamp : ℤ
  results : ValidatedResults
deriving Repr, DecidableEq

/-- The localStorage-backed state.  `setItemFails` models an environment
where every `localStorage.setItem` throws; reads do not throw here. -/
structure StorageState where
  history : List StoredResult
  stats : Stats
  setItemFails : Bool
deriving Repr, DecidableEq

namespace Storage

/-- `Storage.validateSettings`: per-field sanitisation against `defaults`;
an out-of-bounds or unknown value is silently replaced by the default for
that field, never reported. -/
def validateSettings (settings : Settings) : Settings :=
  { questionCount :=
      if 1 ≤ settings.questionCount ∧ settings.questionCount ≤ 50 then
        settings.questionCount else defaultSettings.questionCount,
    timerMode :=
      if settings.timerMode = "off" ∨ settings.timerMode = "per-question" ∨
          settings.timerMode = "total-time" then
        settings.timerMode else defaultSettings.timerMode,
    timerDuration :=
      if 5 ≤ settings.timerDuration ∧ settings.timerDuration ≤ 300 then
        settings.timerDuration else defaultSettings.timerDuration,
    soundEnabled := settings.soundEnabled,
    language :=
      if settings.language = "ar" ∨ settings.language = "en" then
        settings.language else defaultSettings.language,
    testMode :=
      if settings.testMode = "practice" ∨ settings.testMode = "exam" then
        settings.testMode else defaultSettings.testMode }

/-- `Storage.calculateAverageScore`:
`Math.round((averageScore * totalTests + scorePercentage) / (totalTests + 1))`
with JS float division. -/
def calculateAverageScore (currentStats : Stats) (newResults : ValidatedResults) : ℤ :=
  (JsRat.div
    (JsRat.ofInt (currentStats.averageScore * currentStats.totalTests
      + newResults.scorePercentage))
    (JsRat.ofInt (currentStats.totalTests + 1))).round

/-- `Storage.validateTestResults`: throws (`.error`) on a non-positive
`totalQuestions` or negative `correctCount`; repairs the remaining numeric
fields; the `questions` / `userAnswers` / `settings` copies are
unconditional because in this typed model those fields are always present
arrays / objects. -/
def validateTestResults (results : Results) : Except String ValidatedResults :=
  if ¬ 0 < results.totalQuestions then .error "invalid totalQuestions"
  else if ¬ 0 ≤ results.correctCount then .error "invalid correctCount"
  else .ok
    { totalQuestions := results.totalQuestions,
      correctCount := results.correctCount,
      incorrectCount :=
        if 0 ≤ results.incorrectCount then results.incorrectCount
        else results.totalQuestions - results.correctCount,
      scorePercentage :=
        if 0 ≤ results.scorePercentage ∧ results.scorePercentage ≤ 100 then
          results.scorePercentage
        else
          (JsRat.mul (JsRat.div (JsRat.ofInt results.correctCount)
            (JsRat.ofInt results.totalQuestions)) (JsRat.ofInt 100)).round,
      totalTime := if 0 ≤ results.totalTime then results.totalTime else 0,
      questions := results.questions,
      userAnswers := results.userAnswers,
      settings := results.settings }

/-- `Storage.updateStats`: recompute the aggregates and `setItem` them; its
own `try`/`catch` swallows a write failure, leaving the stored stats
unchanged (the new stats object is computed but never persisted). -/
def updateStats (results : ValidatedResults) (now : ℤ) (st : StorageState) :
    StorageState :=
  if st.setItemFails then st
  else
    let stats := st.stats
    { st with stats :=
      { totalTests := stats.totalTests + 1,
        totalQuestions := stats.totalQuestions + results.totalQuestions,
        correctAnswers := stats.correctAnswers + results.correctCount,
        bestScore := max stats.bestScore results.scorePercentage,
        averageScore := calculateAverageScore stats results,
        totalTime := stats.totalTime + results.totalTime,
        lastTestDate := some now } }

/-- `Storage.saveTestResults`: validate, prepend to the history, cap it at
50, persist, then `updateStats`.  The surrounding `try`/`catch` logs and
**re-throws**, so both a validation failure and a `setItem` failure reach
the caller (`some` error here); `updateStats` never throws out of its own
catch. -/
def saveTestResults (results : Results) (now : ℤ) (st : StorageState) :
    StorageState × Option String :=
  match validateTestResults results with
  | .error _ => (st, some "saveTestResults failed")
  | .ok validatedResults =>
    let history := (⟨now, now, validatedResults⟩ : StoredResult) :: st.history
    let history := history.take 50
    if st.setItemFails then (st, some "saveTestResults failed")
    else (updateStats validatedResults now { st with history := history }, none)

end Storage

namespace Modules

namespace QuestionGenerator

/-! ### `js/modules/QuestionGenerator.js` (`src/unnamed/part_002`)

The generator the running app injects into `TestManager`.  Distinct from the
rule-based generator of `src/unnamed/part_006` embedded above. -/
/-- `generateNearMiss`: `correctAnswer + offset` with
`offset = rand < 0.5 ? (rand < 0.5 ? 1 : 2) : (rand < 0.5 ? -1 : -2)`
(exactly two `Math.random()` draws: the outer ternary and the taken inner). -/
def generateNearMiss (correctAnswer : ℤ) (r : Rng) : JsRat × Rng :=
  let (c1, r1) := coinFlip r
  let (c2, r2) := coinFlip r1
  let offset : ℤ := if c1 then (if c2 then 1 else 2) else (if c2 then -1 else -2)
  (JsRat.ofInt (correctAnswer + offset), r2)

/-- `generateRandomReasonable`: a draw from
`[max(0, c - range), c + range]` with `range = Math.max(10, c * 0.5)`
(`range` need not be an integer, so the result can be fractional). -/
def generateRandomReasonable (correctAnswer : ℤ) (r : Rng) : JsRat × Rng :=
  let c := JsRat.ofInt correctAnswer
  let range := JsRat.jsMax (JsRat.ofInt 10) (JsRat.mul c ⟨1, 2⟩)
  let lo := JsRat.jsMax (JsRat.ofInt 0) (JsRat.sub c range)
  let hi := JsRat.add c range
  randomIntJ lo hi r

/-- `generateSwappedDigits`: swap two adjacent digits of
`correctAnswer.toString()` at `Math.floor(Math.random() * (length - 1))` and
`parseInt` the result; strings shorter than 2 fall back to
`generateRandomReasonable`.  `none` stands for a `NaN` `parseInt` result
(only reachable for negative inputs). -/
def generateSwappedDigits (correctAnswer : ℤ) (r : Rng) : Option JsRat × Rng :=
  let answerStr := toString correctAnswer
  if answerStr.length < 2 then
    let (d, r') := generateRandomReasonable correctAnswer r
    (some d, r')
  else
    let digits := answerStr.toList
    let (k, r') := r.next
    let swapIndex := k % (digits.length - 1)
    let swapped := listSwap digits swapIndex (swapIndex + 1)
    (((QuestionGenerator.jsParseInt (String.mk swapped)).map JsRat.ofInt : Option JsRat), r')

/-- JS `Set.add` on numbers (SameValueZero is numeric equality, `beq`),
keeping insertion order. -/
def setAdd (s : List JsRat) (d : JsRat) : List JsRat :=
  if s.contains d then s else s ++ [d]

/-- One candidate folded into the distractor set under the guard
`distractor !== correctAnswer && distractor >= 0`; a `NaN` candidate
(`none`) fails both comparisons and is skipped. -/
def addDistractor (correctAnswer : ℤ) (s : List JsRat) (d : Option JsRat) :
    List JsRat :=
  match d with
  | none => s
  | some d =>
    if JsRat.beq d (JsRat.ofInt correctAnswer) = false ∧
        JsRat.ble (JsRat.ofInt 0) d = true then
      setAdd s d
    else s

/-- The `for (const strategy of this.distractorStrategies)` loop, unrolled
over the constructor's fixed list
`[generateNearMiss, generateSwappedDigits, generateRandomReasonable]`. -/
def strategyPass (correctAnswer : ℤ) (r : Rng) : List JsRat × Rng :=
  let (d1, r1) := generateNearMiss correctAnswer r
  let s1 := addDistractor correctAnswer [] (some d1)
  let (d2, r2) := generateSwappedDigits correctAnswer r1
  let s2 := addDistractor correctAnswer s1 d2
  let (d3, r3) := generateRandomReasonable correctAnswer r2
  (addDistractor correctAnswer s2 (some d3), r3)

/-- The `while (distractors.size < 3)` fill loop; it terminates only almost
surely, so it takes fuel and `none` stands for a run still going. -/
def fillLoop (correctAnswer : ℤ) :
    ℕ → List JsRat → Rng → Option (List JsRat × Rng)
  | 0, s, r => if 3 ≤ s.length then some (s, r) else none
  | fuel + 1, s, r =>
    if 3 ≤ s.length then some (s, r)
    else
      let (d, r') := generateRandomReasonable correctAnswer r
      fillLoop correctAnswer fuel (addDistractor correctAnswer s (some d)) r'

/-- `generateDistractors`: the three fixed strategies, the fill loop, then
`Array.from(distractors).slice(0, 3)`. -/
def generateDistractors (correctAnswer : ℤ) (fuel : ℕ) (r : Rng) :
    Option (List JsRat × Rng) :=
  let (s, r') := strategyPass correctAnswer r
  (fillLoop correctAnswer fuel s r').map (fun p => (p.1.take 3, p.2))

/-- `generateQuestion()` as `TestManager` calls it (both factor arguments
`null`, so both are drawn: `Math.floor(Math.random() * 11)` and
`Math.floor(Math.random() * 100)`).  `indexOf` compares with `===` (`beq`);
its `-1` not-found case is unreachable because the correct answer is an
element of the shuffled list. -/
def generateQuestion (fuel : ℕ) (now : ℤ) (r : Rng) : Option (TMQuestion × Rng) :=
  let (k1, r1) := r.next
  let factorA : ℤ := (k1 % 11 : ℕ)
  let (k2, r2) := r1.next
  let factorB : ℤ := (k2 % 100 : ℕ)
  let correctAnswer := factorA * factorB
  (generateDistractors correctAnswer fuel r2).map (fun p =>
    let answers := JsRat.ofInt correctAnswer :: p.1
    let shuffled := shuffleArray answers p.2
    ({ questionText := s!"{factorA} × {factorB} = ?",
       factorA := factorA, factorB := factorB,
       correctAnswer := correctAnswer,
       answers := shuffled.1,
       correctIndex := (shuffled.1.indexOf (JsRat.ofInt correctAnswer) : ℕ),
       startTime := now }, shuffled.2))

/-- The loop body of `generateTestQuestions`, pushing questions in order. -/
def generateTestQuestionsGo (fuel : ℕ) (now : ℤ) :
    ℕ → List TMQuestion → Rng → Option (List TMQuestion × Rng)
  | 0, acc, r => some (acc, r)
  | n + 1, acc, r =>
    (generateQuestion fuel now r).bind fun p =>
      generateTestQuestionsGo fuel now n (acc ++ [p.1]) p.2

/-- `generateTestQuestions(count)`: `count` questions
(`for (let i = 0; i < count; i++)`; a non-positive count yields `[]`). -/
def generateTestQuestions (count : ℤ) (fuel : ℕ) (now : ℤ) (r : Rng) :
    Option (List TMQuestion × Rng) :=
  generateTestQuestionsGo fuel now count.toNat [] r

/-- `validateAnswer`: `question.correctAnswer === userAnswer`. -/
def validateAnswer (question : TMQuestion) (userAnswer : JsRat) : Bool :=
  JsRat.beq (JsRat.ofInt question.correctAnswer) userAnswer

/-- `calculateTimeSpent({startTime})`: `0` when `startTime` is falsy
(`null`, or the clock value `0`), else
`Math.round((Date.now() - startTime) / 1000)`. -/
def calculateTimeSpent (startTime : Option ℤ) (now : ℤ) : ℤ :=
  match startTime with
  | none => 0
  | some t =>
    if t = 0 then 0
    else (JsRat.div (JsRat.ofInt (now - t)) (JsRat.ofInt 1000)).round

end QuestionGenerator

end Modules

/-! ### `src/js/modules/TestManager.js` and the `app.js` event wiring

One `TMState` gathers the `TestManager` fields, the storage, the observable
UI state and the random stream.  Each handler returns the state it leaves
behind together with `some msg` when the JS would have thrown out of it (the
returned state is the partial state at the throw point).  Calls into the UI
(`updateQuestion`, `updateProgress`, `enableAnswerButtons`,
`app.updateQuickStats`) that only redraw widgets are not modelled;
`showScreen` / `updateResults` / `showConfetti` are, as the screen fields
below.  The timer (`src/js/modules/Timer.js`) is the `timerRunning` flag:
`Timer.start` cancels any existing timer, `Timer.stop` clears it, and
`Timer.tick` stops the timer before invoking `onComplete`, so a completion
callback can only run while a timer was running and the flag is cleared as
it fires. -/
/-- The observable UI surface. -/
structure UIState where
  currentScreen : String
  resultsShown : Bool
  nextDisabled : Bool
  shownSelection : Option ℤ
  confetti : Bool
deriving Repr, DecidableEq

/-- The `this.currentTest` object of `TestManager.startTest`. -/
structure CurrentTest where
  settings : Settings
  questions : List TMQuestion
  startTime : ℤ
  results : Option Results

/-- The full session state. -/
structure TMState where
  currentTest : Option CurrentTest
  currentQuestionIndex : ℕ
  userAnswers : List AnswerEntry
  testStartTime : Option ℤ
  questionStartTime : Option ℤ
  isNavigating : Bool
  timerRunning : Bool
  soundOn : Bool
  storage : StorageState
  ui : UIState
  rng : Rng

namespace TestManager

/-- `TestManager.calculateResults`: counts, rounded percentage and total
time (a `null` `testStartTime` coerces to 0 under subtraction).  For
`totalQuestions = 0` JS produces `NaN` where this model's division by zero
yields the score 0; both fail the only two downstream uses (the
`=== 100` check and `validateTestResults`' `> 0` guard) identically. -/
def calculateResults (ct : CurrentTest) (userAnswers : List AnswerEntry)
    (testStartTime : Option ℤ) (now : ℤ) : Results :=
  let totalQuestions : ℤ := ct.questions.length
  let correctCount : ℤ := (userAnswers.filter (fun a => a.isCorrect)).length
  { totalQuestions := totalQuestions,
    correctCount := correctCount,
    incorrectCount := totalQuestions - correctCount,
    scorePercentage := (JsRat.mul (JsRat.div (JsRat.ofInt correctCount)
      (JsRat.ofInt totalQuestions)) (JsRat.ofInt 100)).round,
    totalTime := (JsRat.div (JsRat.ofInt (now - testStartTime.getD 0))
      (JsRat.ofInt 1000)).round,
    questions := ct.questions,
    userAnswers := userAnswers,
    settings := ct.settings,
    timestamp := now }

/-- `TestManager.endTest`: no-op without a current test; else stop the
timer, compute and attach the results, save them (`saveTestResults` may
throw, and `endTest` has no `try`/`catch`, so the error propagates and
nothing after the save runs), then show the results screen and, on a
perfect score with sound on, confetti.  `currentTest` is never cleared. -/
def endTest (now : ℤ) (st : TMState) : TMState × Option String :=
  match st.currentTest with
  | none => (st, none)
  | some ct =>
    let st1 := { st with timerRunning := false }
    let results := calculateResults ct st1.userAnswers st1.testStartTime now
    let st2 := { st1 with currentTest := some { ct with results := some results } }
    match Storage.saveTestResults results now st2.storage with
    | (storage1, some e) => ({ st2 with storage := storage1 }, some e)
    | (storage1, none) =>
      let st3 := { st2 with
          storage := storage1
          ui := { st2.ui with currentScreen := "results-screen", resultsShown := true } }
      if results.scorePercentage = 100 ∧ st3.soundOn = true then
        ({ st3 with ui := { st3.ui with confetti := true } }, none)
      else (st3, none)

/-- `TestManager.showCurrentQuestion`: out of questions (or no test) ends
the test; else clear the navigation flag, stamp the question start time,
restart the per-question timer, and disable the next button. -/
def showCurrentQuestion (now : ℤ) (st : TMState) : TMState × Option String :=
  match st.currentTest with
  | none => endTest now st
  | some ct =>
    if ct.questions.length ≤ st.currentQuestionIndex then endTest now st
    else
      let st1 := { st with isNavigating := false, questionStartTime := some now }
      let st2 :=
        if ct.settings.timerMode = "per-question" then { st1 with timerRunning := true }
        else st1
      ({ st2 with ui := { st2.ui with nextDisabled := true } }, none)

/-- `TestManager.selectAnswer`: guarded by `!currentTest || isNavigating`;
stores the chosen value on the question object (an out-of-range
`answerIndex` stores `undefined`, `none`) and enables the next button.
Reading `questions[currentQuestionIndex]` when that slot does not exist
throws on the property write. -/
def selectAnswer (answerIndex : ℕ) (st : TMState) : TMState × Option String :=
  match st.currentTest with
  | none => (st, none)
  | some ct =>
    if st.isNavigating then (st, none)
    else
      match ct.questions.get? st.currentQuestionIndex with
      | none => (st, some "TypeError")
      | some question =>
        let question := { question with
            selectedAnswer := question.answers.get? answerIndex
            selectedIndex := some (answerIndex : ℤ) }
        ({ st with
            currentTest := some { ct with
              questions := ct.questions.set st.currentQuestionIndex question }
            ui := { st.ui with
                shownSelection := some (answerIndex : ℤ)
                nextDisabled := false } }, none)

/-- `TestManager.processAnswer`: guarded by `!currentTest || isNavigating`
— and its only caller, `nextQuestion`, sets `isNavigating` first, so at
that call site it always returns at the guard.  Past the guard: a falsy
`selectedAnswer` (absent, or the number `0`) returns without recording;
otherwise validate, time, and push the answer entry. -/
def processAnswer (now : ℤ) (st : TMState) : TMState × Option String :=
  match st.currentTest with
  | none => (st, none)
  | some ct =>
    if st.isNavigating then (st, none)
    else
      match ct.questions.get? st.currentQuestionIndex with
      | none => (st, some "TypeError")
      | some question =>
        match question.selectedAnswer with
        | none => (st, none)
        | some selectedAnswer =>
          if JsRat.beq selectedAnswer (JsRat.ofInt 0) = true then (st, none)
          else
            let isCorrect := Modules.QuestionGenerator.validateAnswer question selectedAnswer
            let timeSpent := Modules.QuestionGenerator.calculateTimeSpent st.questionStartTime now
            let question := { question with
                userAnswer := some selectedAnswer
                isCorrect := some isCorrect
                timeSpent := some timeSpent }
            ({ st with
                userAnswers := st.userAnswers ++
                  [⟨(st.currentQuestionIndex : ℤ), some selectedAnswer, isCorrect, timeSpent⟩]
                currentTest := some { ct with
                  questions := ct.questions.set st.currentQuestionIndex question } }, none)

/-- `TestManager.nextQuestion`: bail while navigating; set the flag, call
`processAnswer` (which then hits its own `isNavigating` guard), advance,
and either end the test or show the next question.  The 100 ms
`setTimeout` that clears the flag is the separate `cooldownReset` event. -/
def nextQuestion (now : ℤ) (st : TMState) : TMState × Option String :=
  if st.isNavigating then (st, none)
  else
    let st1 := { st with isNavigating := true }
    match processAnswer now st1 with
    | (st2, some e) => (st2, some e)
    | (st2, none) =>
      let st3 := { st2 with currentQuestionIndex := st2.currentQuestionIndex + 1 }
      match st3.currentTest with
      | none => (st3, some "TypeError")
      | some ct =>
        if ct.questions.length ≤ st3.currentQuestionIndex then endTest now st3
        else showCurrentQuestion now st3

/-- `TestManager.canProceed`. -/
def canProceed (st : TMState) : Bool :=
  match st.currentTest with
  | none => false
  | some ct => decide (st.currentQuestionIndex < ct.questions.length)

/-- `TestManager.handleTimeUp`: reads `currentTest.settings` with no null
check; per-question mode pushes a `null`-answer entry for the current
question and advances; total-time mode ends the test. -/
def handleTimeUp (now : ℤ) (st : TMState) : TMState × Option String :=
  match st.currentTest with
  | none => (st, some "TypeError")
  | some ct =>
    if ct.settings.timerMode = "per-question" then
      nextQuestion now { st with userAnswers := st.userAnswers ++
        [⟨(st.currentQuestionIndex : ℤ), none, false, ct.settings.timerDuration⟩] }
    else if ct.settings.timerMode = "total-time" then endTest now st
    else (st, none)

/-- `TestManager.cleanup`: stop the timer and clear all session fields. -/
def cleanup (st : TMState) : TMState :=
  { st with
      timerRunning := false
      currentTest := none
      currentQuestionIndex := 0
      userAnswers := []
      testStartTime := none
      questionStartTime := none
      isNavigating := false }

/-- `TestManager.startTest`: cleanup, build `currentTest` from the settings
**as given** (no validation), reset the per-session fields, start the timer
when the mode is not `'off'` (`startTimer` only knows the two modes), show
the test screen and the first question.  `none` only when the generator's
fill loop runs out of fuel. -/
def startTest (settings : Settings) (now : ℤ) (fuel : ℕ) (st : TMState) :
    Option (TMState × Option String) :=
  let st0 := cleanup st
  (Modules.QuestionGenerator.generateTestQuestions settings.questionCount fuel now
      st0.rng).map (fun p =>
    let st1 := { st0 with
        rng := p.2
        currentTest := some { settings := settings, questions := p.1
                              startTime := now, results := none }
        currentQuestionIndex := 0
        userAnswers := []
        testStartTime := some now
        isNavigating := false }
    let st2 :=
      if settings.timerMode ≠ "off" then
        { st1 with timerRunning := (decide (settings.timerMode = "per-question") ||
                      decide (settings.timerMode = "total-time")) }
      else st1
    let st3 := { st2 with ui := { st2.ui with currentScreen := "test-screen" } }
    showCurrentQuestion now st3)

/-- The next-question button (`app.js`): guarded by `canProceed`. -/
def clickNext (now : ℤ) (st : TMState) : TMState × Option String :=
  if canProceed st = true then nextQuestion now st else (st, none)

/-- A timer completion: only a running timer fires, and `Timer.tick` stops
it before invoking `onComplete` (= `handleTimeUp`). -/
def timeUp (now : ℤ) (st : TMState) : TMState × Option String :=
  if st.timerRunning = true then handleTimeUp now { st with timerRunning := false }
  else (st, none)

/-- The 100 ms `setTimeout` scheduled by `nextQuestion` firing. -/
def cooldownReset (st : TMState) : TMState := { st with isNavigating := false }

/-- The constructor state of `TestManager`, over an arbitrary environment
(sound setting, stored data, UI, random stream). -/
def initialState (soundOn : Bool) (storage : StorageState) (ui : UIState)
    (rng : Rng) : TMState :=
  { currentTest := none, currentQuestionIndex := 0, userAnswers := [],
    testStartTime := none, questionStartTime := none, isNavigating := false,
    timerRunning := false, soundOn := soundOn, storage := storage, ui := ui,
    rng := rng }

/-- The states a session can reach: the constructor state, closed under the
events the app dispatches — starting a test, an answer click or number key
(`selectAnswer`), the next button (guarded by `canProceed`), a timer
completion, the end-test button, and the navigation-cooldown timeout. -/
inductive Reachable : TMState → Prop
  | init (soundOn : Bool) (storage : StorageState) (ui : UIState) (rng : Rng) :
      Reachable (initialState soundOn storage ui rng)
  | start {st st' : TMState} {e : Option String} (settings : Settings) (now : ℤ)
      (fuel : ℕ) (h : Reachable st)
      (hs : startTest settings now fuel st = some (st', e)) : Reachable st'
  | select {st : TMState} (answerIndex : ℕ) (h : Reachable st) :
      Reachable (selectAnswer answerIndex st).1
  | next {st : TMState} (now : ℤ) (h : Reachable st) :
      Reachable (clickNext now st).1
  | timeout {st : TMState} (now : ℤ) (h : Reachable st) :
      Reachable (timeUp now st).1
  | endT {st : TMState} (now : ℤ) (h : Reachable st) :
      Reachable (endTest now st).1
  | cooldown {st : TMState} (h : Reachable st) : Reachable (cooldownReset st)

end TestManager

/-! ## Concrete session inputs for witnesses and counterexamples -/
/-- A concrete random stream for session runs. -/
def rngTM : Rng := ⟨fun i => i + 2, 0⟩

/-- The welcome screen the app starts on. -/
def uiInit : UIState :=
  { currentScreen := "welcome-screen", resultsShown := false, nextDisabled := false,
    shownSelection := none, confetti := false }

/-- Empty storage whose writes succeed. -/
def storageOK : StorageState := ⟨[], defaultStats, false⟩

/-- Empty storage whose `setItem` throws. -/
def storageBad : StorageState := ⟨[], defaultStats, true⟩

/-- A one-question, timer-off settings object (within all bounds). -/
def settingsOne : Settings :=
  { questionCount := 1, timerMode := "off", timerDuration := 30,
    soundEnabled := false, language := "ar", testMode := "practice" }

/-- A settings object whose `timerDuration` 400 is outside the accepted
5..300. -/
def settingsBad : Settings :=
  { questionCount := 1, timerMode := "per-question", timerDuration := 400,
    soundEnabled := false, language := "ar", testMode := "practice" }

instance : Inhabited TMState :=
  ⟨TestManager.initialState false storageOK uiInit rngTM⟩

/-- The freshly constructed manager over working storage. -/
def tmInit : TMState := TestManager.initialState false storageOK uiInit rngTM

/-- A concrete generated question (the factors 2 and 3 with distractors). -/
def sampleQuestion : TMQuestion :=
  { questionText := "2 × 3 = ?", factorA := 2, factorB := 3, correctAnswer := 6,
    answers := [JsRat.ofInt 6, JsRat.ofInt 8, JsRat.ofInt 7, JsRat.ofInt 9],
    correctIndex := 0, startTime := 0 }

/-- A one-question running test. -/
def sampleCurrentTest : CurrentTest :=
  { settings := settingsOne, questions := [sampleQuestion], startTime := 0,
    results := none }

/-- A manager mid-test over working storage. -/
def stWithTest : TMState := { tmInit with currentTest := some sampleCurrentTest }

/-- A manager mid-test over storage whose writes throw. -/
def stFailingStorage : TMState :=
  { TestManager.initialState false storageBad uiInit rngTM with
      currentTest := some sampleCurrentTest }

/-- Stats standing at average 80 over 1 test. -/
def statsAvg80 : Stats :=
  { totalTests := 1, totalQuestions := 10, correctAnswers := 8, bestScore := 80,
    averageScore := 80, totalTime := 100, lastTestDate := none }

/-- Storage carrying `statsAvg80`. -/
def storageAvg80 : StorageState := ⟨[], statsAvg80, false⟩

/-- A validated result scoring 60. -/
def resultsScore60 : ValidatedResults :=
  { totalQuestions := 10, correctCount := 6, incorrectCount := 4,
    scorePercentage := 60, totalTime := 50, questions := [], userAnswers := [],
    settings := defaultSettings }

namespace TestManager

/-! ## C3: the answer-log invariant

`processAnswer` is called only by `nextQuestion`, which sets `isNavigating`
first — so `processAnswer` always returns at its own guard and the only
pushes onto `userAnswers` are `handleTimeUp`'s, one per question fired, each
followed by an index advance.  The invariant below captures this and is
preserved by every event. -/
/-- The data part of the session invariant: the answer log is strictly
increasing in `questionIndex`, below the current index, no longer than the
current index, and no longer than the question list. -/
def CoreInv (st : TMState) : Prop :=
  ((st.userAnswers.map (fun a => a.questionIndex)).Pairwise (· < ·)) ∧
  (∀ a ∈ st.userAnswers, a.questionIndex < (st.currentQuestionIndex : ℤ)) ∧
  st.userAnswers.length ≤ st.currentQuestionIndex ∧
  (∀ ct, st.currentTest = some ct → st.userAnswers.length ≤ ct.questions.length)

/-- The full invariant: `CoreInv` plus the control-flow facts that make it
inductive — while navigating no timer runs, and a running timer implies a
current test with questions left. -/
def FullInv (st : TMState) : Prop :=
  CoreInv st ∧
  (st.isNavigating = true → st.timerRunning = false) ∧
  (st.timerRunning = true →
    ∃ ct, st.currentTest = some ct ∧
      st.currentQuestionIndex < ct.questions.length)

end TestManager

namespace QuestionGenerator

/-! ## C9, C10: validateQuestion, exportQuestions, importQuestions
(`src/unnamed/part_006`)

`validateQuestion` receives an arbitrary object (imported data), so its
argument is dynamically typed here: `JsField` distinguishes exactly the
value shapes the function inspects.  `exportQuestions` is
`JSON.stringify(questions)` and `importQuestions` starts with `JSON.parse`;
`parse ∘ stringify` is the identity on the JSON-representable data a
`Question` holds (numbers, strings, booleans, arrays), so the embedded
pipeline carries the document as structured data (`JsonDoc`) and the string
stage is the JS runtime's round trip.  A JS exception is again an
`Except`. -/
/-- A dynamically typed property value. -/
inductive JsField where
  | undef : JsField
  | jnull : JsField
  | num (x : JsRat) : JsField
  | str (s : String) : JsField
  | bool (b : Bool) : JsField
  | arr (xs : List AnswerOption) : JsField
deriving DecidableEq

/-- JS truthiness of a property value. -/
def JsField.truthy : JsField → Bool
  | .undef => false
  | .jnull => false
  | .num x => !(JsRat.beq x (JsRat.ofInt 0))
  | .str s => !(decide (s = ""))
  | .bool b => b
  | .arr _ => true

/-- An arbitrary object handed to `validateQuestion`: the five properties
the function reads, each possibly missing (`undef`) or of any shape. -/
structure DynQuestion where
  id : JsField
  factorA : JsField
  factorB : JsField
  correctAnswer : JsField
  options : JsField
deriving DecidableEq

/-- `validateQuestion`: collects error strings field by field — but the
`question.options.filter(...)` call runs unconditionally, so when `options`
is not an array the function throws a `TypeError` (`.error`) instead of
returning `{isValid, errors}`. -/
def validateQuestion (question : DynQuestion) : Except String (Bool × List String) :=
  let errors : List String := []
  let errors := if question.id.truthy then errors else errors ++ ["Missing question ID"]
  let errors := match question.factorA with
    | .num x => if JsRat.ble (JsRat.ofInt 0) x then errors
        else errors ++ ["Invalid factor A"]
    | _ => errors ++ ["Invalid factor A"]
  let errors := match question.factorB with
    | .num x => if JsRat.ble (JsRat.ofInt 0) x then errors
        else errors ++ ["Invalid factor B"]
    | _ => errors ++ ["Invalid factor B"]
  let errors := match question.correctAnswer with
    | .num x => if JsRat.ble (JsRat.ofInt 0) x then errors
        else errors ++ ["Invalid correct answer"]
    | _ => errors ++ ["Invalid correct answer"]
  let errors := match question.options with
    | .arr xs => if xs.length = 4 then errors else errors ++ ["Invalid options array"]
    | _ => errors ++ ["Invalid options array"]
  match question.options with
  | .arr xs =>
    let correctOptions := xs.filter (fun opt => opt.isCorrect)
    let errors := if correctOptions.length = 1 then errors
      else errors ++ ["Must have exactly one correct option"]
    let errors := match correctOptions.head? with
      | some correctOption =>
        if (match question.correctAnswer with
            | .num c => !(JsRat.beq correctOption.value c)
            | _ => true) then
          errors ++ ["Correct option value does not match correct answer"]
        else errors
      | none => errors
    .ok (errors.isEmpty, errors)
  | _ => .error "TypeError: question.options.filter is not a function"

/-- The dynamic object `JSON.parse(JSON.stringify(q))` yields for a
generated `Question` (its JSON-serialisable fields). -/
def Question.toDyn (q : Question) : DynQuestion :=
  { id := .str q.id,
    factorA := .num (JsRat.ofInt q.factorA),
    factorB := .num (JsRat.ofInt q.factorB),
    correctAnswer := .num (JsRat.ofInt q.correctAnswer),
    options := .arr q.options }

/-- A parsed JSON document: an array of question-shaped objects, or any
other value (including text `JSON.parse` rejects). -/
inductive JsonDoc where
  | arr (questions : List DynQuestion) : JsonDoc
  | other : JsonDoc
deriving DecidableEq

/-- `exportQuestions`: `JSON.stringify(questions, null, 2)` — as a
document, the array of the questions' JSON objects. -/
def exportQuestions (questions : List Question) : JsonDoc :=
  .arr (questions.map Question.toDyn)

/-- The `questions.map((q, index) => ...)` loop of `importQuestions`: each
question is passed to `validateQuestion` (a failed validation only warns)
and returned **unchanged**; an exception thrown inside aborts the map. -/
def importMap : List DynQuestion → Except String (List DynQuestion)
  | [] => .ok []
  | q :: rest =>
    match validateQuestion q with
    | .error e => .error e
    | .ok _ => (importMap rest).map (fun qs => q :: qs)

/-- `importQuestions`: parse, throw unless the document is an array, map
the warn-only validation over it; the `catch` turns any throw (bad JSON,
non-array, or a `validateQuestion` `TypeError`) into `[]`. -/
def importQuestions (doc : JsonDoc) : List DynQuestion :=
  match doc with
  | .other => []
  | .arr questions =>
    match importMap questions with
    | .ok validatedQuestions => validatedQuestions
    | .error _ => []

end QuestionGenerator

/-- A question object whose `options` is `null`. -/
def badOptionsQuestion : QuestionGenerator.DynQuestion :=
  { id := .str "q1", factorA := .num (JsRat.ofInt 2),
    factorB := .num (JsRat.ofInt 3), correctAnswer := .num (JsRat.ofInt 6),
    options := .jnull }

/-! # Theorems -/

/-! ### Shuffle is a permutation -/
theorem randomIntZ_ge (lo hi : ℤ) (r : Rng) : lo ≤ (randomIntZ lo hi r).1 := by
  simp only [randomIntZ, Rng.next]
  have : (0 : ℤ) ≤ ((r.g r.i % max 1 (hi - lo + 1).toNat : ℕ) : ℤ) := Int.ofNat_nonneg _
  omega

theorem randomIntZ_le (lo hi : ℤ) (h : lo ≤ hi) (r : Rng) :
    (randomIntZ lo hi r).1 ≤ hi := by
  simp only [randomIntZ, Rng.next]
  have hw : (0 : ℤ) < hi - lo + 1 := by omega
  have hmax : max 1 (hi - lo + 1).toNat = (hi - lo + 1).toNat := by
    have : 1 ≤ (hi - lo + 1).toNat := by omega
    omega
  have hlt : r.g r.i % max 1 (hi - lo + 1).toNat < (hi - lo + 1).toNat := by
    rw [hmax]
    exact Nat.mod_lt _ (by omega)
  have : ((r.g r.i % max 1 (hi - lo + 1).toNat : ℕ) : ℤ) < hi - lo + 1 := by omega
  omega

/-- Putting `t[m]` at the head and overwriting position `m` is a permutation
of putting `x` at the head. -/
theorem cons_set_perm {α : Type _} :
    ∀ (t : List α) (m : ℕ) (hm : m < t.length) (x : α),
      List.Perm (t.get ⟨m, hm⟩ :: t.set m x) (x :: t)
  | y :: s, 0, _, x => List.Perm.swap x y s
  | y :: s, m + 1, hm, x => by
    have hm' : m < s.length := Nat.lt_of_succ_lt_succ (by simpa using hm)
    have h1 := List.Perm.swap y (s.get ⟨m, hm'⟩) (s.set m x)
    have h2 := List.Perm.cons y (cons_set_perm s m hm' x)
    have h3 := List.Perm.swap x y s
    simpa using (h1.trans h2).trans h3

/-- Writing `l[j]` at position `i` and `l[i]` at position `j` permutes `l`. -/
theorem set_set_perm {α : Type _} :
    ∀ (l : List α) (i j : ℕ) (hi : i < l.length) (hj : j < l.length),
      List.Perm ((l.set i (l.get ⟨j, hj⟩)).set j (l.get ⟨i, hi⟩)) l
  | [], _, _, hi, _ => by simp at hi
  | x :: t, 0, 0, _, _ => by simp
  | x :: t, 0, m + 1, hi, hj => by
    have hm : m < t.length := Nat.lt_of_succ_lt_succ (by simpa using hj)
    simpa using cons_set_perm t m hm x
  | x :: t, n + 1, 0, hi, hj => by
    have hn : n < t.length := Nat.lt_of_succ_lt_succ (by simpa using hi)
    simpa using cons_set_perm t n hn x
  | x :: t, n + 1, m + 1, hi, hj => by
    have hn : n < t.length := Nat.lt_of_succ_lt_succ (by simpa using hi)
    have hm : m < t.length := Nat.lt_of_succ_lt_succ (by simpa using hj)
    simpa using List.Perm.cons x (set_set_perm t n m hn hm)

/-- A two-position swap is a permutation. -/
theorem listSwap_perm {α : Type _} (l : List α) (i j : ℕ)
    (hi : i < l.length) (hj : j < l.length) : List.Perm (listSwap l i j) l := by
  have hgi : l.get? i = some (l.get ⟨i, hi⟩) := List.get?_eq_get hi
  have hgj : l.get? j = some (l.get ⟨j, hj⟩) := List.get?_eq_get hj
  unfold listSwap
  rw [hgi, hgj]
  exact set_set_perm l i j hi hj

theorem shuffleGo_perm {α : Type _} :
    ∀ (fuel : ℕ) (l : List α) (r : Rng), fuel < l.length →
      List.Perm (shuffleGo fuel l r).1 l
  | 0, l, r, _ => List.Perm.refl l
  | i + 1, l, r, h => by
    have hswap : List.Perm (listSwap l (i + 1) (r.next.1 % (i + 2))) l :=
      listSwap_perm l (i + 1) (r.next.1 % (i + 2)) h
        (lt_of_le_of_lt (Nat.le_of_lt_succ (Nat.mod_lt _ (by omega))) h)
    have hlen : (listSwap l (i + 1) (r.next.1 % (i + 2))).length = l.length :=
      hswap.length_eq
    have ih : List.Perm
        (shuffleGo i (listSwap l (i + 1) (r.next.1 % (i + 2))) r.next.2).1
        (listSwap l (i + 1) (r.next.1 % (i + 2))) :=
      shuffleGo_perm i _ r.next.2 (by omega)
    exact (by simpa [shuffleGo] using ih.trans hswap)

theorem shuffleArray_perm {α : Type _} (l : List α) (r : Rng) :
    List.Perm (shuffleArray l r).1 l := by
  unfold shuffleArray
  match hl : l with
  | [] => simp [shuffleGo]
  | x :: t => exact shuffleGo_perm _ _ r (by simp)

namespace JsRat

theorem wf_ofInt (z : ℤ) : (ofInt z).WF := by
  simp [WF, ofInt]

theorem wf_add {x y : JsRat} (hx : x.WF) (hy : y.WF) : (add x y).WF :=
  mul_pos hx hy

theorem wf_sub {x y : JsRat} (hx : x.WF) (hy : y.WF) : (sub x y).WF :=
  mul_pos hx hy

theorem wf_mul {x y : JsRat} (hx : x.WF) (hy : y.WF) : (mul x y).WF :=
  mul_pos hx hy

theorem wf_neg {x : JsRat} (hx : x.WF) : (neg x).WF := hx

theorem wf_jsMax {x y : JsRat} (hx : x.WF) (hy : y.WF) : (jsMax x y).WF := by
  unfold jsMax
  split_ifs <;> assumption

theorem toRat_ofInt (z : ℤ) : (ofInt z).toRat = (z : ℚ) := by
  simp [toRat, ofInt]

theorem toRat_add {x y : JsRat} (hx : x.WF) (hy : y.WF) :
    (add x y).toRat = x.toRat + y.toRat := by
  unfold toRat add
  have hxd : ((x.d : ℚ)) ≠ 0 := by exact_mod_cast hx.ne'
  have hyd : ((y.d : ℚ)) ≠ 0 := by exact_mod_cast hy.ne'
  push_cast
  field_simp

theorem toRat_sub {x y : JsRat} (hx : x.WF) (hy : y.WF) :
    (sub x y).toRat = x.toRat - y.toRat := by
  unfold toRat sub
  have hxd : ((x.d : ℚ)) ≠ 0 := by exact_mod_cast hx.ne'
  have hyd : ((y.d : ℚ)) ≠ 0 := by exact_mod_cast hy.ne'
  push_cast
  field_simp
  ring

theorem toRat_mul {x y : JsRat} (hx : x.WF) (hy : y.WF) :
    (mul x y).toRat = x.toRat * y.toRat := by
  unfold toRat mul
  have hxd : ((x.d : ℚ)) ≠ 0 := by exact_mod_cast hx.ne'
  have hyd : ((y.d : ℚ)) ≠ 0 := by exact_mod_cast hy.ne'
  push_cast
  field_simp

theorem toRat_neg (x : JsRat) : (neg x).toRat = -x.toRat := by
  unfold toRat neg
  push_cast
  ring

theorem ble_iff {x y : JsRat} (hx : x.WF) (hy : y.WF) :
    ble x y = true ↔ x.toRat ≤ y.toRat := by
  unfold ble toRat
  rw [decide_eq_true_iff]
  rw [div_le_div_iff₀ (by exact_mod_cast hx) (by exact_mod_cast hy)]
  constructor
  · intro h
    exact_mod_cast h
  · intro h
    exact_mod_cast h

theorem beq_iff {x y : JsRat} (hx : x.WF) (hy : y.WF) :
    beq x y = true ↔ x.toRat = y.toRat := by
  unfold beq toRat
  rw [beq_iff_eq]
  rw [div_eq_div_iff (by exact_mod_cast hx.ne') (by exact_mod_cast hy.ne')]
  constructor
  · intro h
    exact_mod_cast h
  · intro h
    exact_mod_cast h

theorem beq_ofInt_ofInt (a b : ℤ) : beq (ofInt a) (ofInt b) = true ↔ a = b := by
  simp [beq, ofInt]

theorem toRat_jsMax {x y : JsRat} (hx : x.WF) (hy : y.WF) :
    (jsMax x y).toRat = max x.toRat y.toRat := by
  unfold jsMax
  split_ifs with h
  · rw [max_eq_right ((ble_iff hx hy).mp h)]
  · rw [max_eq_left]
    have := (ble_iff hx hy).not.mp h
    push_neg at this
    exact le_of_lt this

theorem floor_eq {x : JsRat} (hx : x.WF) : x.floor = ⌊x.toRat⌋ := by
  have hd : ((x.d.toNat : ℕ) : ℤ) = x.d := Int.toNat_of_nonneg hx.le
  have h2 : ((x.d.toNat : ℕ) : ℚ) = (x.d : ℚ) := by exact_mod_cast hd
  unfold floor toRat
  calc Int.fdiv x.n x.d = x.n / x.d := Int.fdiv_eq_ediv _ hx.le
    _ = x.n / ((x.d.toNat : ℕ) : ℤ) := by rw [hd]
    _ = ⌊((x.n : ℚ) / ((x.d.toNat : ℕ) : ℚ))⌋ :=
        (Rat.floor_intCast_div_natCast x.n x.d.toNat).symm
    _ = ⌊((x.n : ℚ) / (x.d : ℚ))⌋ := by rw [h2]

theorem ceil_eq {x : JsRat} (hx : x.WF) : x.ceil = ⌈x.toRat⌉ := by
  unfold ceil
  rw [show Int.fdiv (-x.n) x.d = JsRat.floor (neg x) from rfl]
  rw [floor_eq (wf_neg hx), toRat_neg, Int.floor_neg]
  simp

theorem wf_div {x y : JsRat} (hx : x.WF) (hy0 : y.n ≠ 0) : (div x y).WF := by
  unfold div WF at *
  split
  · next h => exact mul_pos hx (by omega)
  · next h => exact mul_pos hx (by omega)

theorem toRat_div {x y : JsRat} (hx : x.WF) (hy : y.WF) (hy0 : y.n ≠ 0) :
    (div x y).toRat = x.toRat / y.toRat := by
  have hxd : (x.d : ℚ) ≠ 0 := by exact_mod_cast hx.ne'
  have hyd : (y.d : ℚ) ≠ 0 := by exact_mod_cast hy.ne'
  have hyn : ((y.n : ℚ)) ≠ 0 := by exact_mod_cast hy0
  unfold div toRat
  split <;> (push_cast; field_simp; try ring)

theorem round_eq {x : JsRat} (hx : x.WF) : x.round = jsRound x.toRat := by
  have h2 : ((⟨1, 2⟩ : JsRat)).WF := by norm_num [WF]
  unfold round jsRound
  rw [floor_eq (wf_add hx h2), toRat_add hx h2]
  norm_num [toRat]

end JsRat

namespace QuestionGenerator

theorem contains_false_all (ds : List JsRat) (d : JsRat)
    (h : ds.contains d = false) : ∀ x ∈ ds, JsRat.beq d x = false := by
  intro x hx
  rcases Bool.eq_false_or_eq_true (JsRat.beq d x) with ht | hf
  · have : ds.contains d = true :=
      List.contains_iff_exists_mem_beq.mpr ⟨x, hx, by exact ht⟩
    rw [h] at this
    cases this
  · exact hf

theorem distractorsOK_append (c : ℤ) (ds : List JsRat) (d : JsRat)
    (h : DistractorsOK c ds) (hwf : d.WF)
    (hne : JsRat.beq d (JsRat.ofInt c) = false)
    (hnew : ds.contains d = false)
    (hnn : JsRat.ble (JsRat.ofInt 0) d = true) :
    DistractorsOK c (ds ++ [d]) := by
  obtain ⟨hwfs, hpair, hall⟩ := h
  have hdc : d.toRat ≠ (c : ℚ) := by
    intro he
    have : JsRat.beq d (JsRat.ofInt c) = true :=
      (JsRat.beq_iff hwf (JsRat.wf_ofInt c)).mpr (by rw [he, JsRat.toRat_ofInt])
    rw [hne] at this
    cases this
  have hd0 : 0 ≤ d.toRat := by
    have := (JsRat.ble_iff (JsRat.wf_ofInt 0) hwf).mp hnn
    rwa [JsRat.toRat_ofInt] at this
  refine ⟨?_, ?_, ?_⟩
  · intro x hx
    rcases List.mem_append.mp hx with hx | hx
    · exact hwfs x hx
    · simp only [List.mem_singleton] at hx
      subst hx
      exact hwf
  · rw [List.pairwise_append]
    refine ⟨hpair, List.pairwise_singleton _ _, ?_⟩
    intro x hx y hy
    simp only [List.mem_singleton] at hy
    intro he
    rw [hy] at he
    have hbxd : JsRat.beq d x = false := contains_false_all ds d hnew x hx
    have hbt : JsRat.beq d x = true :=
      (JsRat.beq_iff hwf (hwfs x hx)).mpr he.symm
    rw [hbxd] at hbt
    cases hbt
  · intro x hx
    rcases List.mem_append.mp hx with hx | hx
    · exact hall x hx
    · simp only [List.mem_singleton] at hx
      subst hx
      exact ⟨hdc, hd0⟩

theorem applyDistractorStrategy_ofInt (s : DistractorStrategy) (c a b : ℤ) (r : Rng) :
    ∀ v, (applyDistractorStrategy s c a b r).1 = some v → ∃ z : ℤ, v = JsRat.ofInt z := by
  intro v h
  cases s <;> simp only [applyDistractorStrategy] at h
  case off_by_one =>
    dsimp only [generateOffByOneDistractor] at h
    exact ⟨_, (Option.some.inj h).symm⟩
  case swap_digits =>
    dsimp only [generateSwapDigitsDistractor] at h
    split at h
    · exact ⟨_, (Option.some.inj h).symm⟩
    · rcases Option.map_eq_some'.mp h with ⟨z, _, hz⟩
      exact ⟨z, hz.symm⟩
  case factor_variation =>
    dsimp only [generateFactorVariationDistractor] at h
    rcases Option.map_eq_some'.mp h with ⟨z, _, hz⟩
    exact ⟨z, hz.symm⟩
  case simple_math =>
    dsimp only [generateSimpleMathDistractor] at h
    rcases Option.map_eq_some'.mp h with ⟨z, _, hz⟩
    exact ⟨z, hz.symm⟩
  case complex_math =>
    dsimp only [generateComplexMathDistractor] at h
    rcases Option.map_eq_some'.mp h with ⟨z, _, hz⟩
    exact ⟨z, hz.symm⟩
  case random_close =>
    dsimp only [generateRandomCloseDistractor] at h
    exact ⟨_, (Option.some.inj h).symm⟩

theorem distractorPassGo_ok (c a b : ℤ) :
    ∀ (strats : List DistractorStrategy) (ds : List JsRat) (r : Rng),
      DistractorsOK c ds → DistractorsOK c (distractorPassGo c a b strats ds r).1
  | [], _, _, h => h
  | s :: rest, ds, r, h => by
    simp only [distractorPassGo]
    rcases happ : applyDistractorStrategy s c a b r with ⟨res, r'⟩
    cases res with
    | none => exact distractorPassGo_ok c a b rest ds r' h
    | some d =>
      dsimp only
      by_cases hc : JsRat.beq d (JsRat.ofInt c) = false ∧ ds.contains d = false ∧
          JsRat.ble (JsRat.ofInt 0) d = true
      · rw [if_pos hc]
        have hwf : d.WF := by
          obtain ⟨z, rfl⟩ := applyDistractorStrategy_ofInt s c a b r d
            (by rw [happ])
          exact JsRat.wf_ofInt z
        exact distractorPassGo_ok c a b rest _ r'
          (distractorsOK_append c ds d h hwf hc.1 hc.2.1 hc.2.2)
      · rw [if_neg hc]
        exact distractorPassGo_ok c a b rest ds r' h

theorem randomIntJ_wf {lo : JsRat} (hi : JsRat) (r : Rng) (hlo : lo.WF) :
    (randomIntJ lo hi r).1.WF :=
  JsRat.wf_add hlo (JsRat.wf_ofInt _)

theorem randomDistractorRange_wf (c : ℤ) (difficulty : String) :
    (randomDistractorRange c difficulty).WF := by
  unfold randomDistractorRange
  split_ifs <;>
    exact JsRat.wf_jsMax (JsRat.wf_ofInt _) (JsRat.wf_mul (JsRat.wf_ofInt _) (by norm_num [JsRat.WF]))

theorem generateRandomDistractor_wf (c : ℤ) (difficulty : String) (r : Rng) :
    (generateRandomDistractor c difficulty r).1.WF :=
  JsRat.wf_jsMax (JsRat.wf_ofInt 0)
    (JsRat.wf_add (JsRat.wf_ofInt c)
      (randomIntJ_wf _ r (JsRat.wf_neg (randomDistractorRange_wf c difficulty))))

theorem generateRandomDistractor_nonneg (c : ℤ) (difficulty : String) (r : Rng) :
    0 ≤ (generateRandomDistractor c difficulty r).1.toRat := by
  have hwf : (JsRat.add (JsRat.ofInt c)
      (randomIntJ (JsRat.neg (randomDistractorRange c difficulty))
        (randomDistractorRange c difficulty) r).1).WF :=
    JsRat.wf_add (JsRat.wf_ofInt c)
      (randomIntJ_wf _ r (JsRat.wf_neg (randomDistractorRange_wf c difficulty)))
  show 0 ≤ (JsRat.jsMax (JsRat.ofInt 0)
    (JsRat.add (JsRat.ofInt c)
      (randomIntJ (JsRat.neg (randomDistractorRange c difficulty))
        (randomDistractorRange c difficulty) r).1)).toRat
  rw [JsRat.toRat_jsMax (JsRat.wf_ofInt 0) hwf, JsRat.toRat_ofInt]
  exact le_max_left 0 _

theorem fillDistractors_ok (c : ℤ) (diff : String) :
    ∀ (fuel : ℕ) (ds : List JsRat) (r : Rng) (out : List JsRat × Rng),
      DistractorsOK c ds → fillDistractors c diff fuel ds r = some out →
      DistractorsOK c out.1 ∧ 3 ≤ out.1.length
  | 0, ds, r, out, h, he => by
    unfold fillDistractors at he
    split at he
    · cases he
      exact ⟨h, by assumption⟩
    · cases he
  | fuel + 1, ds, r, out, h, he => by
    unfold fillDistractors at he
    split at he
    · cases he
      exact ⟨h, by assumption⟩
    · rcases hcand : generateRandomDistractor c diff r with ⟨cand, r'⟩
      rw [hcand] at he
      simp only at he
      split at he
      · rename_i hcond
        have hwf : cand.WF := by
          have := generateRandomDistractor_wf c diff r
          rw [hcand] at this
          exact this
        have hnn : JsRat.ble (JsRat.ofInt 0) cand = true := by
          have h0 := generateRandomDistractor_nonneg c diff r
          rw [hcand] at h0
          exact (JsRat.ble_iff (JsRat.wf_ofInt 0) hwf).mpr (by rwa [JsRat.toRat_ofInt])
        exact fillDistractors_ok c diff fuel _ r' out
          (distractorsOK_append c ds cand h hwf hcond.2 hcond.1 hnn) he
      · exact fillDistractors_ok c diff fuel ds r' out h he

theorem generateDistractors_spec (c a b : ℤ) (diff : String) (fuel : ℕ) (r : Rng)
    (ds : List JsRat) (r' : Rng)
    (h : generateDistractors c a b diff fuel r = some (ds, r')) :
    ds.length = 3 ∧ DistractorsOK c ds := by
  unfold generateDistractors at h
  rcases hdp : distractorPass c a b (getDistractorStrategies diff) r with ⟨passDs, passR⟩
  rw [hdp] at h
  dsimp only at h
  rcases hfd : fillDistractors c diff fuel passDs passR with _ | out
  · rw [hfd] at h
    cases h
  · rw [hfd] at h
    have h2 : some (out.1.take 3, out.2) = some (ds, r') := h
    have h3 := Option.some.inj h2
    cases h3
    have hpass : DistractorsOK c passDs := by
      have := distractorPassGo_ok c a b (getDistractorStrategies diff) [] r
        ⟨by simp, List.Pairwise.nil, by simp⟩
      rw [show distractorPassGo c a b (getDistractorStrategies diff) [] r
          = distractorPass c a b (getDistractorStrategies diff) r from rfl, hdp] at this
      exact this
    have hfill := fillDistractors_ok c diff fuel _ _ out hpass hfd
    refine ⟨by rw [List.length_take]; omega, ?_, ?_, ?_⟩
    · intro x hx
      exact hfill.1.1 x (List.take_subset 3 out.1 hx)
    · exact List.Pairwise.sublist (List.take_sublist 3 out.1) hfill.1.2.1
    · intro x hx
      exact hfill.1.2.2 x (List.take_subset 3 out.1 hx)

theorem buildOptions_values (c : ℤ) (l : List JsRat) :
    (buildOptions c l).map (fun o => o.value) = l := by
  unfold buildOptions
  rw [List.map_map]
  rw [show ((fun o : AnswerOption => o.value) ∘
      (fun p : ℕ × JsRat => AnswerOption.mk p.2 (p.1 + 1) (JsRat.beq p.2 (JsRat.ofInt c))))
      = Prod.snd from rfl]
  exact List.enum_map_snd l

theorem buildOptions_length (c : ℤ) (l : List JsRat) :
    (buildOptions c l).length = l.length := by
  unfold buildOptions
  rw [List.length_map, List.enum_length]

theorem buildOptions_isCorrect (c : ℤ) (l : List JsRat) :
    ∀ o ∈ buildOptions c l, o.isCorrect = JsRat.beq o.value (JsRat.ofInt c) := by
  intro o ho
  unfold buildOptions at ho
  rcases List.mem_map.mp ho with ⟨p, _, rfl⟩
  rfl

theorem buildOptions_countP (c : ℤ) (l : List JsRat) :
    (buildOptions c l).countP (fun o => o.isCorrect)
      = l.countP (fun v => JsRat.beq v (JsRat.ofInt c)) := by
  unfold buildOptions
  rw [List.countP_map]
  rw [show ((fun o : AnswerOption => o.isCorrect) ∘
      (fun p : ℕ × JsRat => AnswerOption.mk p.2 (p.1 + 1) (JsRat.beq p.2 (JsRat.ofInt c))))
      = ((fun v => JsRat.beq v (JsRat.ofInt c)) ∘ Prod.snd) from rfl]
  rw [← List.countP_map, List.enum_map_snd]

theorem generateAnswerOptions_spec (c a b : ℤ) (diff : String)
    (fuel : ℕ) (r : Rng) (opts : List AnswerOption) (r' : Rng) (hc : 0 ≤ c)
    (h : generateAnswerOptions c a b diff fuel r = some (opts, r')) :
    opts.length = 4 ∧
    opts.countP (fun o => o.isCorrect) = 1 ∧
    (∀ o ∈ opts, o.isCorrect = true → o.value.toRat = (c : ℚ)) ∧
    (∀ o ∈ opts, 0 ≤ o.value.toRat) ∧
    (opts.map (fun o => o.value.toRat)).Nodup := by
  unfold generateAnswerOptions at h
  rcases hgd : generateDistractors c a b diff fuel r with _ | ⟨⟨ds, r₁⟩⟩
  · rw [hgd] at h
    cases h
  · rw [hgd] at h
    have h2 : some (buildOptions c (shuffleArray (JsRat.ofInt c :: ds) r₁).1,
        (shuffleArray (JsRat.ofInt c :: ds) r₁).2) = some (opts, r') := h
    have h3 := Option.some.inj h2
    cases h3
    have hspec := generateDistractors_spec c a b diff fuel r ds r₁ hgd
    have hlen3 := hspec.1
    have hwfs := hspec.2.1
    have hpairw := hspec.2.2.1
    have hall := hspec.2.2.2
    have hperm : List.Perm (shuffleArray (JsRat.ofInt c :: ds) r₁).1 (JsRat.ofInt c :: ds) :=
      shuffleArray_perm _ _
    have hwfmem : ∀ x ∈ (shuffleArray (JsRat.ofInt c :: ds) r₁).1, x.WF := by
      intro x hx
      rcases List.mem_cons.mp (hperm.mem_iff.mp hx) with hm | hm
      · subst hm
        exact JsRat.wf_ofInt c
      · exact hwfs x hm
    refine ⟨?_, ?_, ?_, ?_, ?_⟩
    · rw [buildOptions_length, hperm.length_eq]
      simp [hlen3]
    · rw [buildOptions_countP, hperm.countP_eq]
      rw [List.countP_cons_of_pos _ _ (by simp [JsRat.beq, JsRat.ofInt])]
      rw [List.countP_eq_zero.mpr ?_]
      intro x hx
      intro hbeq
      have := (JsRat.beq_iff (hwfs x hx) (JsRat.wf_ofInt c)).mp hbeq
      rw [JsRat.toRat_ofInt] at this
      exact (hall x hx).1 this
    · intro o ho hoc
      have hval : o.value ∈ (shuffleArray (JsRat.ofInt c :: ds) r₁).1 := by
        rw [← buildOptions_values c (shuffleArray (JsRat.ofInt c :: ds) r₁).1]
        exact List.mem_map_of_mem _ ho
      have hic := buildOptions_isCorrect c _ o ho
      rw [hoc] at hic
      have := (JsRat.beq_iff (hwfmem _ hval) (JsRat.wf_ofInt c)).mp hic.symm
      rwa [JsRat.toRat_ofInt] at this
    · intro o ho
      have hval : o.value ∈ (shuffleArray (JsRat.ofInt c :: ds) r₁).1 := by
        rw [← buildOptions_values c (shuffleArray (JsRat.ofInt c :: ds) r₁).1]
        exact List.mem_map_of_mem _ ho
      rcases List.mem_cons.mp (hperm.mem_iff.mp hval) with hm | hm
      · rw [hm, JsRat.toRat_ofInt]
        exact_mod_cast hc
      · exact (hall _ hm).2
    · have hmapeq : (buildOptions c (shuffleArray (JsRat.ofInt c :: ds) r₁).1).map
          (fun o => o.value.toRat)
          = ((shuffleArray (JsRat.ofInt c :: ds) r₁).1).map JsRat.toRat := by
        rw [show (fun o : AnswerOption => o.value.toRat)
            = (JsRat.toRat ∘ fun o : AnswerOption => o.value) from rfl]
        rw [← List.map_map, buildOptions_values]
      rw [hmapeq]
      have hpermmap : List.Perm
          (((shuffleArray (JsRat.ofInt c :: ds) r₁).1).map JsRat.toRat)
          ((JsRat.ofInt c :: ds).map JsRat.toRat) := hperm.map _
      rw [hpermmap.nodup_iff]
      rw [List.map_cons, List.nodup_cons]
      refine ⟨?_, ?_⟩
      · intro hmem
        rcases List.mem_map.mp hmem with ⟨x, hx, hxe⟩
        rw [JsRat.toRat_ofInt] at hxe
        exact (hall x hx).1 hxe
      · exact List.pairwise_map.mpr hpairw

/-! ### Factor bounds -/
theorem getRangeForDifficulty_pos (d : String) :
    0 < (getRangeForDifficulty d).min ∧
    (getRangeForDifficulty d).min ≤ (getRangeForDifficulty d).max := by
  unfold getRangeForDifficulty
  dsimp only
  split_ifs <;> exact ⟨by norm_num, by norm_num⟩

theorem randomNumberWithDigit1InTensOrOnes_bounds (range : FactorRange) (r : Rng)
    (h : range.min ≤ range.max) :
    range.min ≤ (randomNumberWithDigit1InTensOrOnes range r).1 ∧
    (randomNumberWithDigit1InTensOrOnes range r).1 ≤ range.max := by
  unfold randomNumberWithDigit1InTensOrOnes
  dsimp only
  set cands := ((List.range (range.max - range.min + 1).toNat).map
      (fun (t : ℕ) => range.min + (t : ℤ))).filter
    (fun n => n.tmod 10 == 1 || (Int.fdiv n 10).tmod 10 == 1) with hcands
  have hbound : ∀ x ∈ cands, range.min ≤ x ∧ x ≤ range.max := by
    intro x hx
    rw [hcands] at hx
    simp only [List.mem_filter, List.mem_map, List.mem_range] at hx
    obtain ⟨⟨t, ht, rfl⟩, -⟩ := hx
    omega
  split_ifs with hemp
  · exact ⟨randomIntZ_ge _ _ _, randomIntZ_le _ _ h _⟩
  · have hlen : 0 < cands.length := by
      rcases Nat.eq_zero_or_pos cands.length with h0 | h0
      · exact absurd (by simpa [List.isEmpty_iff, List.length_eq_zero] using h0) hemp
      · exact h0
    have hge := randomIntZ_ge 0 ((cands.length : ℤ) - 1) r
    have hle := randomIntZ_le 0 ((cands.length : ℤ) - 1) (by omega) r
    have hidx : (randomIntZ 0 ((cands.length : ℤ) - 1) r).1.toNat < cands.length := by
      omega
    have hget : cands.getD (randomIntZ 0 ((cands.length : ℤ) - 1) r).1.toNat 0
        = cands.get ⟨(randomIntZ 0 ((cands.length : ℤ) - 1) r).1.toNat, hidx⟩ := by
      show (cands.get? _).getD 0 = _
      rw [List.get?_eq_get hidx]
      rfl
    rw [hget]
    exact hbound _ (List.get_mem cands _ hidx)

theorem generateRule1_bounds (range : FactorRange) (r : Rng) (h : range.min ≤ range.max) :
    range.min ≤ (generateRule1 range r).1.1 ∧ (generateRule1 range r).1.1 ≤ range.max ∧
    (generateRule1 range r).1.2 = 11 :=
  ⟨randomIntZ_ge _ _ _, randomIntZ_le _ _ h _, rfl⟩

theorem generateRule4_bounds (range : FactorRange) (r : Rng) (h : range.min ≤ range.max) :
    range.min ≤ (generateRule4 range r).1.1 ∧ (generateRule4 range r).1.1 ≤ range.max ∧
    range.min ≤ (generateRule4 range r).1.2 ∧ (generateRule4 range r).1.2 ≤ range.max :=
  ⟨randomIntZ_ge _ _ _, randomIntZ_le _ _ h _, randomIntZ_ge _ _ _, randomIntZ_le _ _ h _⟩

theorem generateRule2Go_bounds (range : FactorRange) (h : range.min ≤ range.max) :
    ∀ (fuel : ℕ) (a b : ℤ) (r : Rng),
      range.min ≤ a → a ≤ range.max → range.min ≤ b → b ≤ range.max →
      range.min ≤ (generateRule2Go range fuel a b r).1.1 ∧
      (generateRule2Go range fuel a b r).1.1 ≤ range.max ∧
      range.min ≤ (generateRule2Go range fuel a b r).1.2 ∧
      (generateRule2Go range fuel a b r).1.2 ≤ range.max
  | 0, a, b, r, ha1, ha2, hb1, hb2 => ⟨ha1, ha2, hb1, hb2⟩
  | fuel + 1, a, b, r, ha1, ha2, hb1, hb2 => by
    unfold generateRule2Go
    split_ifs with hcond
    · rcases hflip : coinFlip r with ⟨flip, r'⟩
      dsimp only
      cases flip
      · rcases hdraw : randomNumberWithDigit1InTensOrOnes range r' with ⟨b', r''⟩
        dsimp only
        have hb' := randomNumberWithDigit1InTensOrOnes_bounds range r' h
        rw [hdraw] at hb'
        exact generateRule2Go_bounds range h fuel a b' r'' ha1 ha2 hb'.1 hb'.2
      · rcases hdraw : randomNumberWithDigit1InTensOrOnes range r' with ⟨a', r''⟩
        dsimp only
        have ha' := randomNumberWithDigit1InTensOrOnes_bounds range r' h
        rw [hdraw] at ha'
        exact generateRule2Go_bounds range h fuel a' b r'' ha'.1 ha'.2 hb1 hb2
    · exact ⟨ha1, ha2, hb1, hb2⟩

theorem generateRule2_bounds (range : FactorRange) (r : Rng) (h : range.min ≤ range.max) :
    range.min ≤ (generateRule2 range r).1.1 ∧ (generateRule2 range r).1.1 ≤ range.max ∧
    range.min ≤ (generateRule2 range r).1.2 ∧ (generateRule2 range r).1.2 ≤ range.max := by
  unfold generateRule2
  rcases hda : randomIntZ range.min range.max r with ⟨a, r1⟩
  dsimp only
  rcases hdb : randomIntZ range.min range.max r1 with ⟨b, r2⟩
  dsimp only
  have ha1 := randomIntZ_ge range.min range.max r
  have ha2 := randomIntZ_le range.min range.max h r
  have hb1 := randomIntZ_ge range.min range.max r1
  have hb2 := randomIntZ_le range.min range.max h r1
  rw [hda] at ha1 ha2
  rw [hdb] at hb1 hb2
  exact generateRule2Go_bounds range h 1000 a b r2 ha1 ha2 hb1 hb2

theorem selectRule_extreme (rt : Option ℕ) (d : String) (r : Rng)
    (h1 : d ≠ "") (h2 : jsToLower d = "extreme") : selectRule rt d r = (4, r) := by
  unfold selectRule
  rw [if_pos ⟨h1, h2⟩]

theorem selectRule_mem (rt : Option ℕ) (d : String) (r : Rng) :
    (selectRule rt d r).1 = 1 ∨ (selectRule rt d r).1 = 2 ∨ (selectRule rt d r).1 = 4 := by
  unfold selectRule
  split_ifs with hex
  · right; right; rfl
  · have hpick : ∀ s : Rng,
        validRules.getD (randomIntZ 0 ((validRules.length : ℤ) - 1) s).1.toNat 4 = 1 ∨
        validRules.getD (randomIntZ 0 ((validRules.length : ℤ) - 1) s).1.toNat 4 = 2 ∨
        validRules.getD (randomIntZ 0 ((validRules.length : ℤ) - 1) s).1.toNat 4 = 4 := by
      intro s
      rcases hn : (randomIntZ 0 ((validRules.length : ℤ) - 1) s).1.toNat with _ | _ | _ | n <;>
        simp [validRules, List.getD]
    rcases rt with _ | t
    · exact hpick r
    · dsimp only
      by_cases hmem : validRules.contains t
      · rw [if_pos hmem]
        have : t ∈ validRules := by simpa using hmem
        simpa [validRules] using this
      · rw [if_neg hmem]
        exact hpick r

theorem getRange_not_extreme (d : String) (h : ¬ (d ≠ "" ∧ jsToLower d = "extreme")) :
    (getRangeForDifficulty d).min = 10 ∧ 11 ≤ (getRangeForDifficulty d).max := by
  by_cases hd : d = ""
  · subst hd
    exact ⟨by decide, by decide⟩
  · have hne : jsToLower d ≠ "extreme" := fun he => h ⟨hd, he⟩
    unfold getRangeForDifficulty
    rw [if_neg hd]
    dsimp only
    split_ifs with h1 h2 h3
    · exact ⟨rfl, by norm_num⟩
    · exact ⟨rfl, by norm_num⟩
    · exact ⟨rfl, by norm_num⟩
    · exact ⟨rfl, by norm_num⟩

theorem generateFactorsByRules_bounds (rt : Option ℕ) (d : String) (r : Rng) :
    (getRangeForDifficulty d).min ≤ (generateFactorsByRules rt d r).1.1 ∧
    (generateFactorsByRules rt d r).1.1 ≤ (getRangeForDifficulty d).max ∧
    (getRangeForDifficulty d).min ≤ (generateFactorsByRules rt d r).1.2 ∧
    (generateFactorsByRules rt d r).1.2 ≤ (getRangeForDifficulty d).max := by
  have hrange := getRangeForDifficulty_pos d
  unfold generateFactorsByRules
  rcases hsel : selectRule rt d r with ⟨rule, r'⟩
  dsimp only
  have hmem := selectRule_mem rt d r
  rw [hsel] at hmem
  dsimp only at hmem
  rcases hmem with h1 | h2 | h4
  · subst h1
    have hb := generateRule1_bounds (getRangeForDifficulty d) r' hrange.2
    have hnex : ¬ (d ≠ "" ∧ jsToLower d = "extreme") := by
      intro hex
      have := selectRule_extreme rt d r hex.1 hex.2
      rw [hsel] at this
      cases this
    have h11 := getRange_not_extreme d hnex
    exact ⟨hb.1, hb.2.1, by rw [hb.2.2]; omega, by rw [hb.2.2]; omega⟩
  · subst h2
    exact generateRule2_bounds (getRangeForDifficulty d) r' hrange.2
  · subst h4
    exact generateRule4_bounds (getRangeForDifficulty d) r' hrange.2

theorem createQuestion_valid (opts : GenOptions) (now : ℤ) (fuel : ℕ) (r : Rng)
    (q : Question) (r' : Rng)
    (hr : opts.useMultiplicationRules = true ∨
      (0 ≤ opts.factorARange.1 ∧ 0 ≤ opts.factorBRange.1))
    (h : createQuestion opts now fuel r = some (q, r')) :
    QuestionInvariant q := by
  unfold createQuestion at h
  rcases hfac : (if opts.useMultiplicationRules then
      generateFactorsByRules opts.ruleType opts.difficulty r
    else
      let (a, ra) := randomIntZ opts.factorARange.1 opts.factorARange.2 r
      let (b, rb) := randomIntZ opts.factorBRange.1 opts.factorBRange.2 ra
      ((a, b), rb)) with ⟨factors, r1⟩
  rw [hfac] at h
  dsimp only at h
  rcases hqid : generateQuestionId now r1 with ⟨qid, r2⟩
  rw [hqid] at h
  dsimp only at h
  have hf : 0 ≤ factors.1 ∧ 0 ≤ factors.2 := by
    by_cases hu : opts.useMultiplicationRules = true
    · rw [if_pos hu] at hfac
      have hb := generateFactorsByRules_bounds opts.ruleType opts.difficulty r
      have hp := getRangeForDifficulty_pos opts.difficulty
      rw [hfac] at hb
      dsimp only at hb
      constructor <;> omega
    · rcases hr with hru | ⟨ha, hb⟩
      · exact absurd hru hu
      · rw [if_neg hu] at hfac
        have h1 : (randomIntZ opts.factorARange.1 opts.factorARange.2 r).1 = factors.1 :=
          congrArg (fun p => p.1.1) hfac
        have h2 : (randomIntZ opts.factorBRange.1 opts.factorBRange.2
            (randomIntZ opts.factorARange.1 opts.factorARange.2 r).2).1 = factors.2 :=
          congrArg (fun p => p.1.2) hfac
        constructor
        · rw [← h1]
          exact le_trans ha (randomIntZ_ge _ _ _)
        · rw [← h2]
          exact le_trans hb (randomIntZ_ge _ _ _)
  have hc : 0 ≤ factors.1 * factors.2 := mul_nonneg hf.1 hf.2
  rcases hopt : generateAnswerOptions (factors.1 * factors.2) factors.1 factors.2
      opts.difficulty fuel r2 with _ | ⟨⟨optsL, r3⟩⟩
  · rw [hopt] at h
    cases h
  · rw [hopt] at h
    have h2 : some ((Question.mk qid factors.1 factors.2 (factors.1 * factors.2)
        optsL opts.difficulty now (getTimeLimit opts.difficulty)), r3) = some (q, r') := h
    have h3 := Option.some.inj h2
    have hq := congrArg Prod.fst h3
    dsimp only at hq
    subst hq
    have hspec := generateAnswerOptions_spec (factors.1 * factors.2) factors.1 factors.2
      opts.difficulty fuel r2 optsL r3 hc hopt
    exact ⟨rfl, hspec.1, hspec.2.1, hspec.2.2.1, hspec.2.2.2.1, hspec.2.2.2.2⟩

theorem generateQuestionLoop_spec (opts : GenOptions) (hist : List Question)
    (now : ℤ) (fuel : ℕ)
    (hr : opts.useMultiplicationRules = true ∨
      (0 ≤ opts.factorARange.1 ∧ 0 ≤ opts.factorBRange.1)) :
    ∀ (remaining : ℕ) (r : Rng) (q : Question) (r' : Rng) (n : ℕ),
      generateQuestionLoop opts hist now fuel remaining r = some (q, r', n) →
      QuestionInvariant q ∧ 1 ≤ n ∧ n ≤ remaining ∧
        (opts.avoidDuplicates = true → isDuplicate hist q = true → n = remaining)
  | 0, r, q, r', n, h => by
    unfold generateQuestionLoop at h
    cases h
  | remaining + 1, r, q, r', n, h => by
    unfold generateQuestionLoop at h
    rcases hcq : createQuestion opts now fuel r with _ | ⟨⟨q0, r0⟩⟩
    · rw [hcq] at h
      cases h
    · rw [hcq] at h
      dsimp only [Option.bind] at h
      split at h
      · rename_i hcond
        rcases hrec : generateQuestionLoop opts hist now fuel remaining r0
            with _ | ⟨⟨q1, r1, m⟩⟩
        · rw [hrec] at h
          cases h
        · rw [hrec] at h
          have h2 : some (q1, r1, m + 1) = some (q, r', n) := h
          have h3 := Option.some.inj h2
          have hqe : q1 = q := congrArg (fun p => p.1) h3
          have hne : m + 1 = n := congrArg (fun p => p.2.2) h3
          rw [← hqe, ← hne]
          have ih := generateQuestionLoop_spec opts hist now fuel hr remaining r0 q1 r1 m hrec
          refine ⟨ih.1, by omega, by omega, ?_⟩
          intro havoid hdup
          have := ih.2.2.2 havoid hdup
          omega
      · rename_i hcond
        have h2 : some (q0, r0, 1) = some (q, r', n) := h
        have h3 := Option.some.inj h2
        have hqe : q0 = q := congrArg (fun p => p.1) h3
        have hne : 1 = n := congrArg (fun p => p.2.2) h3
        rw [← hqe, ← hne]
        refine ⟨createQuestion_valid opts now fuel r q0 r0 hr hcq, le_refl 1, by omega, ?_⟩
        intro havoid hdup
        simp only [Bool.and_eq_true, decide_eq_true_eq, not_and] at hcond
        have hnr := hcond ⟨havoid, hdup⟩
        omega

/-- **C1.**  Every question `generateQuestion` returns satisfies the
structural invariant: `correctAnswer = factorA * factorB`, exactly 4
options, exactly one option marked correct, that option's value equal to
the correct answer, and all 4 option values non-negative and pairwise
distinct.  (When the rule-based path is off, the caller-supplied factor
ranges must be non-negative, as the spec's data model requires of
factors.) -/
theorem generateQuestion_satisfies_invariant (opts : GenOptions) (now : ℤ)
    (fuel : ℕ) (st : GenState) (q : Question) (st' : GenState)
    (hr : opts.useMultiplicationRules = true ∨
      (0 ≤ opts.factorARange.1 ∧ 0 ≤ opts.factorBRange.1))
    (h : generateQuestion opts now fuel st = some (q, st')) :
    QuestionInvariant q := by
  unfold generateQuestion at h
  rcases hloop : generateQuestionLoop opts st.history now fuel 50 st.rng
      with _ | ⟨⟨q1, r1, n⟩⟩
  · rw [hloop] at h
    cases h
  · rw [hloop] at h
    have h2 : some (q1, (GenState.mk (st.history ++ [q1]) r1)) = some (q, st') := h
    have h3 := Option.some.inj h2
    have hqe : q1 = q := congrArg Prod.fst h3
    rw [← hqe]
    exact (generateQuestionLoop_spec opts st.history now fuel hr 50 st.rng q1 r1 n hloop).1

theorem generateQuestionLoop_count (opts : GenOptions) (hist : List Question)
    (now : ℤ) (fuel : ℕ) :
    ∀ (remaining : ℕ) (r : Rng) (q : Question) (r' : Rng) (n : ℕ),
      generateQuestionLoop opts hist now fuel remaining r = some (q, r', n) →
      1 ≤ n ∧ n ≤ remaining ∧
        (opts.avoidDuplicates = true → isDuplicate hist q = true → n = remaining)
  | 0, r, q, r', n, h => by
    unfold generateQuestionLoop at h
    cases h
  | remaining + 1, r, q, r', n, h => by
    unfold generateQuestionLoop at h
    rcases hcq : createQuestion opts now fuel r with _ | ⟨⟨q0, r0⟩⟩
    · rw [hcq] at h
      cases h
    · rw [hcq] at h
      dsimp only [Option.bind] at h
      split at h
      · rcases hrec : generateQuestionLoop opts hist now fuel remaining r0
            with _ | ⟨⟨q1, r1, m⟩⟩
        · rw [hrec] at h
          cases h
        · rw [hrec] at h
          have h2 : some (q1, r1, m + 1) = some (q, r', n) := h
          have h3 := Option.some.inj h2
          have hqe : q1 = q := congrArg (fun p => p.1) h3
          have hne : m + 1 = n := congrArg (fun p => p.2.2) h3
          rw [← hqe, ← hne]
          have ih := generateQuestionLoop_count opts hist now fuel remaining r0 q1 r1 m hrec
          refine ⟨by omega, by omega, ?_⟩
          intro havoid hdup
          have := ih.2.2 havoid hdup
          omega
      · rename_i hcond
        have h2 : some (q0, r0, 1) = some (q, r', n) := h
        have h3 := Option.some.inj h2
        have hqe : q0 = q := congrArg (fun p => p.1) h3
        have hne : 1 = n := congrArg (fun p => p.2.2) h3
        rw [← hqe, ← hne]
        refine ⟨le_refl 1, by omega, ?_⟩
        intro havoid hdup
        simp only [Bool.and_eq_true, decide_eq_true_eq, not_and] at hcond
        have hnr := hcond ⟨havoid, hdup⟩
        omega

/-- **C7.**  `generateQuestion` with `avoidDuplicates` regenerates up to the
50-attempt bound until the unordered factor pair is new: the returned
question comes from the attempt loop having used `n ≤ 50` attempts, and if
the returned question still duplicates the history then all 50 attempts
were consumed (the bound was exhausted and the last — possibly duplicate —
question was returned rather than a failure); in every case the returned
question is appended to the generator's history. -/
theorem generateQuestion_duplicateRetry_spec (opts : GenOptions) (now : ℤ)
    (fuel : ℕ) (st : GenState) (q : Question) (st' : GenState)
    (h : generateQuestion opts now fuel st = some (q, st')) :
    st'.history = st.history ++ [q] ∧
    ∃ (r' : Rng) (n : ℕ),
      generateQuestionLoop opts st.history now fuel 50 st.rng = some (q, r', n) ∧
      1 ≤ n ∧ n ≤ 50 ∧
      (opts.avoidDuplicates = true → isDuplicate st.history q = true → n = 50) := by
  unfold generateQuestion at h
  rcases hloop : generateQuestionLoop opts st.history now fuel 50 st.rng
      with _ | ⟨⟨q1, r1, n⟩⟩
  · rw [hloop] at h
    cases h
  · rw [hloop] at h
    have h2 : some (q1, (GenState.mk (st.history ++ [q1]) r1)) = some (q, st') := h
    have h3 := Option.some.inj h2
    have hqe : q1 = q := congrArg Prod.fst h3
    have hse : GenState.mk (st.history ++ [q1]) r1 = st' := congrArg Prod.snd h3
    subst hqe
    rw [← hse]
    have hcount := generateQuestionLoop_count opts st.history now fuel 50 st.rng q1 r1 n hloop
    exact ⟨rfl, r1, n, rfl, hcount.1, hcount.2.1, hcount.2.2⟩

/-- **C6.**  Under the rule-based path, both generated factors lie within
the difficulty's documented range — whichever of the three rules
(times-eleven, digit-one, fully-random) is used — the documented ranges
being easy → [10,20], medium → [10,50], hard → [10,100],
extreme → [50,99]; and extreme difficulty always forces the fully-random
rule (rule 4). -/
theorem generateFactorsByRules_difficulty_ranges (rt : Option ℕ) (d : String) (r : Rng) :
    ((getRangeForDifficulty d).min ≤ (generateFactorsByRules rt d r).1.1 ∧
      (generateFactorsByRules rt d r).1.1 ≤ (getRangeForDifficulty d).max ∧
      (getRangeForDifficulty d).min ≤ (generateFactorsByRules rt d r).1.2 ∧
      (generateFactorsByRules rt d r).1.2 ≤ (getRangeForDifficulty d).max) ∧
    (d ≠ "" → jsToLower d = "extreme" → (selectRule rt d r).1 = 4) ∧
    getRangeForDifficulty "easy" = ⟨10, 20⟩ ∧
    getRangeForDifficulty "medium" = ⟨10, 50⟩ ∧
    getRangeForDifficulty "hard" = ⟨10, 100⟩ ∧
    getRangeForDifficulty "extreme" = ⟨50, 99⟩ := by
  refine ⟨generateFactorsByRules_bounds rt d r, ?_, by decide, by decide, by decide, by decide⟩
  intro h1 h2
  rw [selectRule_extreme rt d r h1 h2]

end QuestionGenerator

/-- Witness for C1: a concrete `generateQuestion` run returns a question,
and the theorem yields its invariant. -/
theorem generateQuestion_satisfies_invariant_witness :
    (QuestionGenerator.generateQuestion sampleOpts 0 20 sampleState).elim False
      (fun p => QuestionGenerator.QuestionInvariant p.1) := by
  have hs : (QuestionGenerator.generateQuestion sampleOpts 0 20 sampleState).isSome = true := by
    decide
  match hx : QuestionGenerator.generateQuestion sampleOpts 0 20 sampleState with
  | none =>
    rw [hx] at hs
    cases hs
  | some p =>
    exact QuestionGenerator.generateQuestion_satisfies_invariant sampleOpts 0 20 sampleState
      p.1 p.2 (Or.inl rfl) (by rw [hx])

/-- Witness for C7: the concrete run's question is appended to the history. -/
theorem generateQuestion_duplicateRetry_spec_witness :
    (QuestionGenerator.generateQuestion sampleOpts 0 20 sampleState).elim False
      (fun p => p.2.history = sampleState.history ++ [p.1]) := by
  have hs : (QuestionGenerator.generateQuestion sampleOpts 0 20 sampleState).isSome = true := by
    decide
  match hx : QuestionGenerator.generateQuestion sampleOpts 0 20 sampleState with
  | none =>
    rw [hx] at hs
    cases hs
  | some p =>
    exact (QuestionGenerator.generateQuestion_duplicateRetry_spec sampleOpts 0 20 sampleState
      p.1 p.2 (by rw [hx])).1

/-- Witness for C6: at extreme difficulty with an explicitly requested
rule 1, rule 4 is still selected, and the factors lie within [50, 99]. -/
theorem generateFactorsByRules_difficulty_ranges_witness :
    (QuestionGenerator.selectRule (some 1) "extreme" rngZero).1 = 4 ∧
    (QuestionGenerator.getRangeForDifficulty "extreme").min ≤
      (QuestionGenerator.generateFactorsByRules (some 1) "extreme" rngZero).1.1 ∧
    (QuestionGenerator.generateFactorsByRules (some 1) "extreme" rngZero).1.1 ≤
      (QuestionGenerator.getRangeForDifficulty "extreme").max := by
  have h := QuestionGenerator.generateFactorsByRules_difficulty_ranges (some 1) "extreme" rngZero
  exact ⟨h.2.1 (by decide) (by decide), h.1.1, h.1.2.1⟩

namespace Storage

/-! ## Storage lemmas -/
theorem updateStats_history (results : ValidatedResults) (now : ℤ)
    (st : StorageState) : (updateStats results now st).history = st.history := by
  unfold updateStats
  split <;> rfl

theorem saveTestResults_setItemFails (results : Results) (now : ℤ)
    (st : StorageState) (hfail : st.setItemFails = true) :
    saveTestResults results now st = (st, some "saveTestResults failed") := by
  unfold saveTestResults
  rcases h : validateTestResults results with e | vr
  · rfl
  · simp [hfail]

theorem saveTestResults_ok_history (results : Results) (now : ℤ)
    (st : StorageState) (h1 : 0 < results.totalQuestions)
    (h2 : 0 ≤ results.correctCount) (hok : st.setItemFails = false) :
    (saveTestResults results now st).2 = none ∧
    (saveTestResults results now st).1.history.length =
      min 50 (st.history.length + 1) := by
  have hval : ∃ vr, validateTestResults results = .ok vr := by
    unfold validateTestResults
    rw [if_neg (not_not_intro h1), if_neg (not_not_intro h2)]
    exact ⟨_, rfl⟩
  obtain ⟨vr, hvr⟩ := hval
  unfold saveTestResults
  rw [hvr]
  dsimp only
  rw [if_neg (by simp [hok])]
  refine ⟨rfl, ?_⟩
  rw [updateStats_history]
  simp only [List.length_take, List.length_cons]

end Storage

namespace TestManager

/-! ## TestManager lemmas -/
theorem endTest_settings_preserved (now : ℤ) (st : TMState) (ct : CurrentTest)
    (hct : st.currentTest = some ct) :
    ∃ ct2, (endTest now st).1.currentTest = some ct2 ∧
      ct2.settings = ct.settings := by
  unfold endTest
  rw [hct]
  dsimp only
  rcases hs : Storage.saveTestResults
      (calculateResults ct st.userAnswers st.testStartTime now) now st.storage
    with ⟨storage1, e1⟩
  rcases e1 with _ | msg
  · dsimp only
    split
    · exact ⟨_, rfl, rfl⟩
    · exact ⟨_, rfl, rfl⟩
  · exact ⟨_, rfl, rfl⟩

theorem showCurrentQuestion_settings (now : ℤ) (st : TMState) (ct : CurrentTest)
    (hct : st.currentTest = some ct) :
    ∃ ct2, (showCurrentQuestion now st).1.currentTest = some ct2 ∧
      ct2.settings = ct.settings := by
  unfold showCurrentQuestion
  rw [hct]
  dsimp only
  split
  · exact endTest_settings_preserved now st ct hct
  · split
    · exact ⟨ct, rfl, rfl⟩
    · exact ⟨ct, rfl, rfl⟩

theorem startTest_currentTest (settings : Settings) (now : ℤ) (fuel : ℕ)
    (st st' : TMState) (e : Option String)
    (h : startTest settings now fuel st = some (st', e)) :
    ∃ ct, st'.currentTest = some ct ∧ ct.settings = settings := by
  unfold startTest at h
  dsimp only at h
  rcases hg : Modules.QuestionGenerator.generateTestQuestions settings.questionCount
      fuel now (cleanup st).rng with _ | p
  · rw [hg] at h
    cases h
  · rw [hg] at h
    simp only [Option.map_some'] at h
    have h2 := Option.some.inj h
    have hfst := congrArg Prod.fst h2
    dsimp only at hfst
    rw [← hfst]
    apply showCurrentQuestion_settings now _ ⟨settings, p.1, now, none⟩
    split <;> rfl

end TestManager

/-! ## C2, C4, C5, C8 -/
/-- **C2.**  (corrected)  `endTest`'s only guard is a missing `currentTest`,
and `endTest` never clears `currentTest`, so after a completed test the
state still holds it and a *second* call re-runs the whole pipeline: with
working storage every call with a current (non-empty) test appends another
history entry (capped at 50).  The no-op case is exactly
`currentTest = none`. -/
theorem endTest_not_idempotent (st : TMState) (ct : CurrentTest) (now : ℤ)
    (hct : st.currentTest = some ct) (hq : 0 < ct.questions.length)
    (hok : st.storage.setItemFails = false) :
    (TestManager.endTest now st).1.currentTest.isSome = true ∧
    (TestManager.endTest now st).1.storage.history.length =
      min 50 (st.storage.history.length + 1) ∧
    (∀ st2 : TMState, st2.currentTest = none →
      TestManager.endTest now st2 = (st2, none)) := by
  refine ⟨?_, ?_, ?_⟩
  · unfold TestManager.endTest
    rw [hct]
    dsimp only
    rcases hs : Storage.saveTestResults
        (TestManager.calculateResults ct st.userAnswers st.testStartTime now) now
        st.storage with ⟨storage1, e1⟩
    rcases e1 with _ | msg
    · dsimp only
      split <;> rfl
    · rfl
  · unfold TestManager.endTest
    rw [hct]
    dsimp only
    have h1 : 0 < (TestManager.calculateResults ct st.userAnswers st.testStartTime
        now).totalQuestions := by
      show (0 : ℤ) < ct.questions.length
      exact_mod_cast hq
    have h2 : 0 ≤ (TestManager.calculateResults ct st.userAnswers st.testStartTime
        now).correctCount := Int.ofNat_nonneg _
    have hsave := Storage.saveTestResults_ok_history
      (TestManager.calculateResults ct st.userAnswers st.testStartTime now) now
      st.storage h1 h2 hok
    rcases hs : Storage.saveTestResults
        (TestManager.calculateResults ct st.userAnswers st.testStartTime now) now
        st.storage with ⟨storage1, e1⟩
    rw [hs] at hsave
    obtain ⟨he, hlen⟩ := hsave
    dsimp only at he hlen
    rcases e1 with _ | msg
    · dsimp only
      split <;> exact hlen
    · cases he
  · intro st2 h2
    unfold TestManager.endTest
    rw [h2]

/-- Witness for C2's theorem at a concrete mid-test state. -/
theorem endTest_not_idempotent_witness :
    stWithTest.currentTest = some sampleCurrentTest ∧
    0 < sampleCurrentTest.questions.length ∧
    stWithTest.storage.setItemFails = false ∧
    ((TestManager.endTest 0 stWithTest).1.currentTest.isSome = true ∧
     (TestManager.endTest 0 stWithTest).1.storage.history.length =
       min 50 (stWithTest.storage.history.length + 1) ∧
     (∀ st2 : TMState, st2.currentTest = none →
       TestManager.endTest 0 st2 = (st2, none))) :=
  ⟨rfl, by decide, rfl,
   endTest_not_idempotent stWithTest sampleCurrentTest 0 rfl (by decide) rfl⟩

/-- Counterexample for C2 as frozen: a full one-question run (start, next,
which ends the test and saves once), then the end-test button firing
`endTest` again: the history has two entries, so the second call was
observable. -/
theorem endTest_second_call_appends :
    (TestManager.startTest settingsOne 0 50 tmInit).isSome = true ∧
    (let stA := ((TestManager.startTest settingsOne 0 50 tmInit).getD default).1
     let stB := (TestManager.clickNext 5 stA).1
     let stC := (TestManager.endTest 9 stB).1
     stB.storage.history.length = 1 ∧ stC.storage.history.length = 2) := by
  decide

/-- **C4.**  (corrected)  When the storage write throws, `saveTestResults`
**re-throws** after logging, and `endTest` has no `try`/`catch`: the error
propagates out of `endTest` (`some`), the UI is left untouched (no results
screen), and the stored data is unchanged.  What *does* survive: the timer
is stopped and the results are computed and attached to `currentTest`
before the failing save. -/
theorem endTest_storage_failure_propagates (st : TMState) (ct : CurrentTest)
    (now : ℤ) (hct : st.currentTest = some ct)
    (hfail : st.storage.setItemFails = true) :
    (TestManager.endTest now st).2.isSome = true ∧
    (TestManager.endTest now st).1.timerRunning = false ∧
    (TestManager.endTest now st).1.storage = st.storage ∧
    (TestManager.endTest now st).1.ui = st.ui ∧
    (TestManager.endTest now st).1.currentTest =
      some { ct with
        results := some (TestManager.calculateResults ct st.userAnswers
          st.testStartTime now) } := by
  unfold TestManager.endTest
  rw [hct]
  dsimp only
  rw [Storage.saveTestResults_setItemFails _ _ _ hfail]
  exact ⟨rfl, rfl, rfl, rfl, rfl⟩

/-- Witness for C4's theorem at a concrete mid-test state over storage
whose writes throw. -/
theorem endTest_storage_failure_propagates_witness :
    stFailingStorage.currentTest = some sampleCurrentTest ∧
    stFailingStorage.storage.setItemFails = true ∧
    ((TestManager.endTest 3 stFailingStorage).2.isSome = true ∧
     (TestManager.endTest 3 stFailingStorage).1.timerRunning = false ∧
     (TestManager.endTest 3 stFailingStorage).1.storage = stFailingStorage.storage ∧
     (TestManager.endTest 3 stFailingStorage).1.ui = stFailingStorage.ui ∧
     (TestManager.endTest 3 stFailingStorage).1.currentTest =
       some { sampleCurrentTest with
         results := some (TestManager.calculateResults sampleCurrentTest
           stFailingStorage.userAnswers stFailingStorage.testStartTime 3) }) :=
  ⟨rfl, rfl,
   endTest_storage_failure_propagates stFailingStorage sampleCurrentTest 3 rfl rfl⟩

/-- Counterexample for C4 as frozen: with a current test and failing
storage, `endTest` throws out (`some` error) and the results screen is
never shown — the session does not reach its completed, results-shown
state. -/
theorem endTest_storage_failure_counterexample :
    (TestManager.endTest 3 stFailingStorage).2.isSome = true ∧
    (TestManager.endTest 3 stFailingStorage).1.ui.resultsShown = false ∧
    (TestManager.endTest 3 stFailingStorage).1.ui.currentScreen =
      "welcome-screen" := by
  decide

/-- **C5.**  (corrected)  No settings validation happens at session start:
`startTest` installs whatever settings object it is handed (the session's
settings are the raw input), while `Storage.validateSettings` — which only
runs when settings are persisted — silently replaces an out-of-bounds
`questionCount` or `timerDuration` with the defaults 10 / 30 instead of
rejecting with an error. -/
theorem startTest_no_validation (settings : Settings) (now : ℤ) (fuel : ℕ)
    (st st' : TMState) (e : Option String)
    (h : TestManager.startTest settings now fuel st = some (st', e)) :
    (∃ ct, st'.currentTest = some ct ∧ ct.settings = settings) ∧
    (¬ (1 ≤ settings.questionCount ∧ settings.questionCount ≤ 50) →
      (Storage.validateSettings settings).questionCount = 10) ∧
    (¬ (5 ≤ settings.timerDuration ∧ settings.timerDuration ≤ 300) →
      (Storage.validateSettings settings).timerDuration = 30) := by
  refine ⟨TestManager.startTest_currentTest settings now fuel st st' e h, ?_, ?_⟩
  · intro hbad
    unfold Storage.validateSettings
    dsimp only
    rw [if_neg hbad]
    rfl
  · intro hbad
    unfold Storage.validateSettings
    dsimp only
    rw [if_neg hbad]
    rfl

/-- Witness for C5's theorem: starting with `timerDuration = 400` (outside
5..300) succeeds and the session carries those settings verbatim. -/
theorem startTest_no_validation_witness :
    ((TestManager.startTest settingsBad 0 50 tmInit).elim False (fun p =>
      (∃ ct, p.1.currentTest = some ct ∧ ct.settings = settingsBad) ∧
      (¬ (1 ≤ settingsBad.questionCount ∧ settingsBad.questionCount ≤ 50) →
        (Storage.validateSettings settingsBad).questionCount = 10) ∧
      (¬ (5 ≤ settingsBad.timerDuration ∧ settingsBad.timerDuration ≤ 300) →
        (Storage.validateSettings settingsBad).timerDuration = 30))) := by
  have hsome : (TestManager.startTest settingsBad 0 50 tmInit).isSome = true := by
    decide
  match hx : TestManager.startTest settingsBad 0 50 tmInit with
  | some p => exact startTest_no_validation settingsBad 0 50 tmInit p.1 p.2 hx
  | none => rw [hx] at hsome; cases hsome

/-- Counterexample for C5 as frozen: the out-of-bounds `timerDuration = 400`
is *not* rejected — the start succeeds without error, a session exists, its
per-question timer is running, and its settings still carry 400. -/
theorem startTest_out_of_bounds_counterexample :
    (TestManager.startTest settingsBad 0 50 tmInit).isSome = true ∧
    (let stA := ((TestManager.startTest settingsBad 0 50 tmInit).getD default).1
     let eA := ((TestManager.startTest settingsBad 0 50 tmInit).getD default).2
     eA.isSome = false ∧ stA.currentTest.isSome = true ∧
     stA.timerRunning = true ∧
     (stA.currentTest.map (fun ct => ct.settings.timerDuration)).getD 0 = 400) := by
  decide

/-- **C8.**  The stored running average updates by
`newAverage = round((oldAverage * oldCount + newScore) / (oldCount + 1))`
(real division, JS `Math.round`), whenever the stats write goes through. -/
theorem updateStats_average_formula (st : StorageState)
    (results : ValidatedResults) (now : ℤ) (hok : st.setItemFails = false)
    (hn : 0 ≤ st.stats.totalTests) :
    (Storage.updateStats results now st).stats.averageScore
      = jsRound (((st.stats.averageScore * st.stats.totalTests
          + results.scorePercentage : ℤ) : ℚ)
          / ((st.stats.totalTests + 1 : ℤ) : ℚ)) := by
  unfold Storage.updateStats
  rw [if_neg (by simp [hok])]
  dsimp only
  unfold Storage.calculateAverageScore
  have hne : (JsRat.ofInt (st.stats.totalTests + 1)).n ≠ 0 := by
    show st.stats.totalTests + 1 ≠ 0
    omega
  rw [JsRat.round_eq (JsRat.wf_div (JsRat.wf_ofInt _) hne),
    JsRat.toRat_div (JsRat.wf_ofInt _) (JsRat.wf_ofInt _) hne,
    JsRat.toRat_ofInt, JsRat.toRat_ofInt]

/-- Witness for C8's theorem: average 80 over 1 test, a new score of 60 —
the formula applies and the new average is 70. -/
theorem updateStats_average_formula_witness :
    storageAvg80.setItemFails = false ∧
    (0 : ℤ) ≤ storageAvg80.stats.totalTests ∧
    ((Storage.updateStats resultsScore60 7 storageAvg80).stats.averageScore
      = jsRound (((storageAvg80.stats.averageScore * storageAvg80.stats.totalTests
          + resultsScore60.scorePercentage : ℤ) : ℚ)
          / ((storageAvg80.stats.totalTests + 1 : ℤ) : ℚ))) ∧
    (Storage.updateStats resultsScore60 7 storageAvg80).stats.averageScore = 70 :=
  ⟨rfl, by decide,
   updateStats_average_formula storageAvg80 resultsScore60 7 rfl (by decide),
   by decide⟩

namespace TestManager

theorem processAnswer_navigating (now : ℤ) (st : TMState)
    (hnav : st.isNavigating = true) : processAnswer now st = (st, none) := by
  unfold processAnswer
  rcases hc : st.currentTest with _ | ct
  · rfl
  · simp [hnav]

theorem endTest_inv_some (now : ℤ) (st : TMState) (ct : CurrentTest)
    (hct : st.currentTest = some ct) (hcore : CoreInv st) :
    FullInv (endTest now st).1 := by
  obtain ⟨hA, h2, h3, h4⟩ := hcore
  unfold endTest
  rw [hct]
  dsimp only
  rcases hs : Storage.saveTestResults
      (calculateResults ct st.userAnswers st.testStartTime now) now st.storage
    with ⟨storage1, e1⟩
  have hlen : st.userAnswers.length ≤ ct.questions.length := h4 ct hct
  rcases e1 with _ | msg
  · dsimp only
    split
    · refine ⟨⟨hA, h2, h3, ?_⟩, fun _ => rfl, fun h => by simp at h⟩
      intro ct2 hc2
      cases Option.some.inj hc2
      exact hlen
    · refine ⟨⟨hA, h2, h3, ?_⟩, fun _ => rfl, fun h => by simp at h⟩
      intro ct2 hc2
      cases Option.some.inj hc2
      exact hlen
  · refine ⟨⟨hA, h2, h3, ?_⟩, fun _ => rfl, fun h => by simp at h⟩
    intro ct2 hc2
    cases Option.some.inj hc2
    exact hlen

theorem showCurrentQuestion_inv (now : ℤ) (st : TMState) (ct : CurrentTest)
    (hct : st.currentTest = some ct) (hcore : CoreInv st) :
    FullInv (showCurrentQuestion now st).1 := by
  obtain ⟨hA, h2, h3, h4⟩ := hcore
  unfold showCurrentQuestion
  rw [hct]
  dsimp only
  split
  · exact endTest_inv_some now st ct hct ⟨hA, h2, h3, h4⟩
  · rename_i hlt
    split
    · refine ⟨⟨hA, h2, h3, ?_⟩, fun h => by simp at h, fun _ => ?_⟩
      · intro ct2 hc2
        have hc2' : some ct = some ct2 := hc2
        cases Option.some.inj hc2'
        exact h4 ct hct
      · refine ⟨ct, rfl, ?_⟩
        show st.currentQuestionIndex < ct.questions.length
        omega
    · refine ⟨⟨hA, h2, h3, ?_⟩, fun h => by simp at h, fun _ => ?_⟩
      · intro ct2 hc2
        have hc2' : some ct = some ct2 := hc2
        cases Option.some.inj hc2'
        exact h4 ct hct
      · refine ⟨ct, rfl, ?_⟩
        show st.currentQuestionIndex < ct.questions.length
        omega

theorem nextQuestion_inv_aux (now : ℤ) (st : TMState) (ct : CurrentTest)
    (hct : st.currentTest = some ct) (hnav : st.isNavigating = false)
    (hA : ((st.userAnswers.map (fun a => a.questionIndex)).Pairwise (· < ·)))
    (h2 : ∀ a ∈ st.userAnswers,
      a.questionIndex < ((st.currentQuestionIndex : ℤ) + 1))
    (h3 : st.userAnswers.length ≤ st.currentQuestionIndex + 1)
    (h4 : st.userAnswers.length ≤ ct.questions.length) :
    FullInv (nextQuestion now st).1 := by
  unfold nextQuestion
  rw [if_neg (by simp [hnav])]
  dsimp only
  rw [processAnswer_navigating now { st with isNavigating := true } rfl]
  dsimp only
  rw [hct]
  dsimp only
  have h2' : ∀ a ∈ st.userAnswers,
      a.questionIndex < ((st.currentQuestionIndex + 1 : ℕ) : ℤ) := by
    intro a ha
    have := h2 a ha
    push_cast
    omega
  split
  · exact endTest_inv_some now
      { st with
          currentTest := some ct
          isNavigating := true
          currentQuestionIndex := st.currentQuestionIndex + 1 } ct rfl
      ⟨hA, h2', h3, fun ct2 hc2 => by
        have hc2' : some ct = some ct2 := hc2
        cases Option.some.inj hc2'
        exact h4⟩
  · exact showCurrentQuestion_inv now
      { st with
          currentTest := some ct
          isNavigating := true
          currentQuestionIndex := st.currentQuestionIndex + 1 } ct rfl
      ⟨hA, h2', h3, fun ct2 hc2 => by
        have hc2' : some ct = some ct2 := hc2
        cases Option.some.inj hc2'
        exact h4⟩

theorem selectAnswer_inv (i : ℕ) (st : TMState) (hinv : FullInv st) :
    FullInv (selectAnswer i st).1 := by
  obtain ⟨⟨hA, h2, h3, h4⟩, hB, hD⟩ := hinv
  unfold selectAnswer
  rcases hct : st.currentTest with _ | ct
  · exact ⟨⟨hA, h2, h3, h4⟩, hB, hD⟩
  · dsimp only
    rcases Bool.eq_false_or_eq_true st.isNavigating with hnav | hnav
    · rw [if_pos hnav]
      exact ⟨⟨hA, h2, h3, h4⟩, hB, hD⟩
    · rw [if_neg (show ¬ st.isNavigating = true by simp [hnav])]
      rcases hq : ct.questions.get? st.currentQuestionIndex with _ | q
      · exact ⟨⟨hA, h2, h3, h4⟩, hB, hD⟩
      · refine ⟨⟨hA, h2, h3, ?_⟩, hB, ?_⟩
        · intro ct2 hc2
          have hc2' : some { ct with
              questions := ct.questions.set st.currentQuestionIndex
                { q with
                    selectedAnswer := q.answers.get? i
                    selectedIndex := some (i : ℤ) } } = some ct2 := hc2
          cases Option.some.inj hc2'
          show st.userAnswers.length ≤ (ct.questions.set _ _).length
          rw [List.length_set]
          exact h4 ct hct
        · intro htmr
          obtain ⟨ct', hct', hlt⟩ := hD htmr
          rw [hct] at hct'
          cases Option.some.inj hct'
          refine ⟨_, rfl, ?_⟩
          show st.currentQuestionIndex < (ct.questions.set _ _).length
          rw [List.length_set]
          exact hlt

theorem clickNext_inv (now : ℤ) (st : TMState) (hinv : FullInv st) :
    FullInv (clickNext now st).1 := by
  obtain ⟨⟨hA, h2, h3, h4⟩, hB, hD⟩ := hinv
  unfold clickNext
  split
  · rename_i hcp
    unfold canProceed at hcp
    rcases hct : st.currentTest with _ | ct
    · rw [hct] at hcp
      cases hcp
    · rw [hct] at hcp
      simp only [decide_eq_true_eq] at hcp
      cases hnav : st.isNavigating with
      | false =>
        apply nextQuestion_inv_aux now st ct hct hnav hA ?_ ?_ (h4 ct hct)
        · intro a ha
          have := h2 a ha
          omega
        · omega
      | true =>
        unfold nextQuestion
        rw [if_pos (by simp [hnav])]
        exact ⟨⟨hA, h2, h3, h4⟩, hB, hD⟩
  · exact ⟨⟨hA, h2, h3, h4⟩, hB, hD⟩

theorem endTest_event_inv (now : ℤ) (st : TMState) (hinv : FullInv st) :
    FullInv (endTest now st).1 := by
  obtain ⟨core, hB, hD⟩ := hinv
  rcases hct : st.currentTest with _ | ct
  · have hne : endTest now st = (st, none) := by
      unfold endTest
      rw [hct]
    rw [hne]
    exact ⟨core, hB, hD⟩
  · exact endTest_inv_some now st ct hct core

theorem cooldownReset_inv (st : TMState) (hinv : FullInv st) :
    FullInv (cooldownReset st) := by
  obtain ⟨⟨hA, h2, h3, h4⟩, hB, hD⟩ := hinv
  exact ⟨⟨hA, h2, h3, h4⟩, fun h => by simp [cooldownReset] at h, hD⟩

theorem initialState_inv (soundOn : Bool) (storage : StorageState) (ui : UIState)
    (rng : Rng) : FullInv (initialState soundOn storage ui rng) := by
  refine ⟨⟨?_, ?_, ?_, ?_⟩, ?_, ?_⟩
  · simp [initialState]
  · intro a ha
    simp [initialState] at ha
  · simp [initialState]
  · intro ct hc2
    cases hc2
  · intro _
    rfl
  · intro h
    simp [initialState] at h

theorem startTest_inv (settings : Settings) (now : ℤ) (fuel : ℕ)
    (st st' : TMState) (e : Option String)
    (h : startTest settings now fuel st = some (st', e)) : FullInv st' := by
  unfold startTest at h
  dsimp only at h
  rcases hg : Modules.QuestionGenerator.generateTestQuestions settings.questionCount
      fuel now (cleanup st).rng with _ | p
  · rw [hg] at h
    cases h
  · rw [hg] at h
    simp only [Option.map_some'] at h
    have h2 := Option.some.inj h
    have hfst := congrArg Prod.fst h2
    dsimp only at hfst
    rw [← hfst]
    apply showCurrentQuestion_inv now _ ⟨settings, p.1, now, none⟩ ?_ ?_
    · split <;> rfl
    · refine ⟨?_, ?_, ?_, ?_⟩
      · split <;> simp
      · split <;> (intro a ha; simp at ha)
      · split <;> simp
      · split <;> (intro ct2 hc2; simp)

theorem timeUp_inv (now : ℤ) (st : TMState) (hinv : FullInv st) :
    FullInv (timeUp now st).1 := by
  obtain ⟨⟨hA, h2, h3, h4⟩, hB, hD⟩ := hinv
  unfold timeUp
  split
  · rename_i htmr
    obtain ⟨ct, hct, hlt⟩ := hD htmr
    have hnav : st.isNavigating = false := by
      rcases Bool.eq_false_or_eq_true st.isNavigating with hv | hv
      · rw [hB hv] at htmr
        cases htmr
      · exact hv
    unfold handleTimeUp
    dsimp only
    rw [hct]
    dsimp only
    split
    · refine nextQuestion_inv_aux now _ ct rfl hnav ?_ ?_ ?_ ?_
      · dsimp only
        rw [List.map_append, List.pairwise_append]
        refine ⟨hA, by simp, ?_⟩
        intro a ha b hb
        simp only [List.map_cons, List.map_nil, List.mem_singleton] at hb
        subst hb
        obtain ⟨a', ha', rfl⟩ := List.mem_map.mp ha
        exact h2 a' ha'
      · dsimp only
        intro a ha
        rcases List.mem_append.mp ha with hin | hin
        · have := h2 a hin
          omega
        · simp only [List.mem_singleton] at hin
          subst hin
          dsimp only
          omega
      · dsimp only
        rw [List.length_append]
        simp only [List.length_singleton]
        omega
      · dsimp only
        rw [List.length_append]
        simp only [List.length_singleton]
        omega
    · split
      · exact endTest_inv_some now
          { st with
              currentTest := some ct
              timerRunning := false } ct rfl
          ⟨hA, h2, h3, fun ct2 hc2 => by
            have hc2' : some ct = some ct2 := hc2
            cases Option.some.inj hc2'
            exact h4 ct hct⟩
      · refine ⟨⟨hA, h2, h3, ?_⟩, fun _ => rfl, fun h => by simp at h⟩
        intro ct2 hc2
        have hc2' : some ct = some ct2 := hc2
        cases Option.some.inj hc2'
        exact h4 ct hct
  · exact ⟨⟨hA, h2, h3, h4⟩, hB, hD⟩

theorem reachable_inv (st : TMState) (h : Reachable st) : FullInv st := by
  induction h with
  | init soundOn storage ui rng => exact initialState_inv soundOn storage ui rng
  | start settings now fuel h hs ih => exact startTest_inv settings now fuel _ _ _ hs
  | select i h ih => exact selectAnswer_inv i _ ih
  | next now h ih => exact clickNext_inv now _ ih
  | timeout now h ih => exact timeUp_inv now _ ih
  | endT now h ih => exact endTest_event_inv now _ ih
  | cooldown h ih => exact cooldownReset_inv _ ih

end TestManager

/-- **C3.**  At every reachable session state the answer log has at most
one entry per question (the logged `questionIndex`es are pairwise distinct)
and never more entries than the session has questions.  This holds even for
a per-question timeout on a question with a selection, because
`processAnswer` — the only other push site — is called exclusively by
`nextQuestion` *after* it sets `isNavigating`, so `processAnswer`'s own
`isNavigating` guard always returns first and only `handleTimeUp` ever
appends, once per question fired. -/
theorem userAnswers_log_invariant (st : TMState) (h : TestManager.Reachable st) :
    (∀ ct, st.currentTest = some ct →
      st.userAnswers.length ≤ ct.questions.length) ∧
    ((st.userAnswers.map (fun a => a.questionIndex)).Pairwise (· ≠ ·)) := by
  obtain ⟨⟨hA, h2, h3, h4⟩, _, _⟩ := TestManager.reachable_inv st h
  exact ⟨h4, hA.imp (fun hlt => ne_of_lt hlt)⟩

/-- Witness for C3: the invariant at the concrete state reached by starting
a one-question test (the start event applied to the constructor state). -/
theorem userAnswers_log_invariant_witness :
    (∀ ct, ((TestManager.startTest settingsOne 0 50 tmInit).getD
        default).1.currentTest = some ct →
      ((TestManager.startTest settingsOne 0 50 tmInit).getD
        default).1.userAnswers.length ≤ ct.questions.length) ∧
    ((((TestManager.startTest settingsOne 0 50 tmInit).getD
        default).1.userAnswers.map (fun a => a.questionIndex)).Pairwise (· ≠ ·)) := by
  have hsome : (TestManager.startTest settingsOne 0 50 tmInit).isSome = true := by
    decide
  have hs : TestManager.startTest settingsOne 0 50 tmInit =
      some (((TestManager.startTest settingsOne 0 50 tmInit).getD default).1,
            ((TestManager.startTest settingsOne 0 50 tmInit).getD default).2) := by
    rcases hx : TestManager.startTest settingsOne 0 50 tmInit with _ | p
    · rw [hx] at hsome
      cases hsome
    · rfl
  exact userAnswers_log_invariant _
    (TestManager.Reachable.start settingsOne 0 50
      (TestManager.Reachable.init false storageOK uiInit rngTM) hs)

namespace QuestionGenerator

theorem validateQuestion_arr_ok (question : DynQuestion)
    (xs : List AnswerOption) (h : question.options = JsField.arr xs) :
    ∃ r, validateQuestion question = .ok r := by
  unfold validateQuestion
  rw [h]
  exact ⟨_, rfl⟩

theorem importMap_ok (l : List DynQuestion)
    (h : ∀ q ∈ l, ∃ r, validateQuestion q = .ok r) : importMap l = .ok l := by
  induction l with
  | nil => rfl
  | cons q rest ih =>
    obtain ⟨r, hr⟩ := h q (List.mem_cons_self q rest)
    unfold importMap
    rw [hr, ih (fun q2 hq2 => h q2 (List.mem_cons_of_mem q hq2))]
    rfl

theorem importQuestions_export_id (qs : List Question) :
    importQuestions (exportQuestions qs) = qs.map Question.toDyn := by
  unfold exportQuestions importQuestions
  dsimp only
  rw [importMap_ok (qs.map Question.toDyn) ?_]
  intro q hq
  obtain ⟨q', hq', rfl⟩ := List.mem_map.mp hq
  exact validateQuestion_arr_ok (Question.toDyn q') q'.options rfl

end QuestionGenerator

/-- **C9.**  `importQuestions (exportQuestions qs)` returns as many entries
as `qs`, and each entry's `factorA`, `factorB` and `correctAnswer` are those
of the corresponding question in `qs`: the import validates but never
modifies or drops an exported entry. -/
theorem importQuestions_exportQuestions_roundTrip (qs : List Question) :
    (QuestionGenerator.importQuestions
      (QuestionGenerator.exportQuestions qs)).length = qs.length ∧
    (QuestionGenerator.importQuestions
        (QuestionGenerator.exportQuestions qs)).map
        (fun q => (q.factorA, q.factorB, q.correctAnswer))
      = qs.map (fun q => (QuestionGenerator.JsField.num (JsRat.ofInt q.factorA),
          QuestionGenerator.JsField.num (JsRat.ofInt q.factorB),
          QuestionGenerator.JsField.num (JsRat.ofInt q.correctAnswer))) := by
  rw [QuestionGenerator.importQuestions_export_id]
  constructor
  · rw [List.length_map]
  · rw [List.map_map]
    rfl

/-- Witness for C9 at a concrete one-question list. -/
theorem importQuestions_exportQuestions_roundTrip_witness :
    (QuestionGenerator.importQuestions
      (QuestionGenerator.exportQuestions [(default : Question)])).length = 1 ∧
    (QuestionGenerator.importQuestions
        (QuestionGenerator.exportQuestions [(default : Question)])).map
        (fun q => (q.factorA, q.factorB, q.correctAnswer))
      = [(default : Question)].map
          (fun q => (QuestionGenerator.JsField.num (JsRat.ofInt q.factorA),
            QuestionGenerator.JsField.num (JsRat.ofInt q.factorB),
            QuestionGenerator.JsField.num (JsRat.ofInt q.correctAnswer))) :=
  importQuestions_exportQuestions_roundTrip [(default : Question)]

/-- **C10.**  `validateQuestion` is not total: whenever the `options` field
is missing or not an array it throws (the unconditional `options.filter`),
and it returns an `{isValid, errors}` result exactly when `options` is an
array. -/
theorem validateQuestion_not_total (question : QuestionGenerator.DynQuestion) :
    ((∀ xs, question.options ≠ QuestionGenerator.JsField.arr xs) →
      ∃ msg, QuestionGenerator.validateQuestion question = .error msg) ∧
    (∀ xs, question.options = QuestionGenerator.JsField.arr xs →
      ∃ isValid errors,
        QuestionGenerator.validateQuestion question = .ok (isValid, errors)) := by
  constructor
  · intro h
    unfold QuestionGenerator.validateQuestion
    rcases hopt : question.options with _ | _ | x | s | b | xs
    · exact ⟨_, rfl⟩
    · exact ⟨_, rfl⟩
    · exact ⟨_, rfl⟩
    · exact ⟨_, rfl⟩
    · exact ⟨_, rfl⟩
    · exact absurd hopt (h xs)
  · intro xs h
    obtain ⟨⟨isValid, errors⟩, hr⟩ :=
      QuestionGenerator.validateQuestion_arr_ok question xs h
    exact ⟨isValid, errors, hr⟩

/-- Witness for C10: with `options: null` the call throws; with a genuine
options array it returns a result. -/
theorem validateQuestion_not_total_witness :
    (∃ msg, QuestionGenerator.validateQuestion badOptionsQuestion = .error msg) ∧
    (∃ isValid errors,
      QuestionGenerator.validateQuestion
        { badOptionsQuestion with options := .arr [] } = .ok (isValid, errors)) :=
  ⟨(validateQuestion_not_total badOptionsQuestion).1
      (fun _ h => QuestionGenerator.JsField.noConfusion h),
   (validateQuestion_not_total { badOptionsQuestion with options := .arr [] }).2
      [] rfl⟩

